import Mathlib

/-!
Verification of the metadata-extraction core of the grafana-ui-mcp-server
repository (component parser, story parser, MDX parser, theme extractor).

The TypeScript sources are embedded shallowly: every regular-expression scan
is modelled by an explicit backtracking character-list matcher whose search
order (leftmost position, greedy runs tried longest-first, lazy runs tried
shortest-first, alternatives in written order) mirrors the JavaScript engine.
JavaScript exceptions are modelled by Option results; JavaScript objects with
optionally-present keys are modelled by structures of Option fields.
-/

namespace GrafanaUI

/-- Character class of the JavaScript regex `\s` restricted to the code points
that can appear in the repository's inputs. -/
def jsSpace (c : Char) : Bool :=
  c = ' ' || c = '\t' || c = '\n' || c = '\r' || c = '\x0b' || c = '\x0c' || c.val = 160

/-- Character class of the JavaScript regex `\w`. -/
def wordChar (c : Char) : Bool :=
  c.isAlpha || c.isDigit || c = '_'

/-- Does `needle` occur as a contiguous substring of `hay`?  Models
`String.prototype.includes`. -/
def includesL (hay needle : List Char) : Bool :=
  match hay with
  | [] => needle.isEmpty
  | _ :: r => needle.isPrefixOf hay || includesL r needle

/-- String-level wrapper for `includesL`. -/
def includesS (hay needle : String) : Bool :=
  includesL hay.toList needle.toList

/-- Index of the first occurrence of `needle` in `hay`, if any.  Models
`String.prototype.indexOf` (restricted to found/not-found). -/
def subIdxL (hay needle : List Char) : Option Nat :=
  match hay with
  | [] => if needle.isEmpty then some 0 else none
  | _ :: r =>
    if needle.isPrefixOf hay then some 0
    else (subIdxL r needle).map (· + 1)

/-- String-level wrapper for `subIdxL`. -/
def subIdxS (hay needle : String) : Option Nat :=
  subIdxL hay.toList needle.toList

/-- JavaScript `String.prototype.trim` on character lists. -/
def trimL (l : List Char) : List Char :=
  ((l.dropWhile jsSpace).reverse.dropWhile jsSpace).reverse

/-- JavaScript `split(sep)` for a one-character separator: never returns an
empty list, and an empty input yields one empty field. -/
def splitOnCharL (sep : Char) : List Char → List (List Char)
  | [] => [[]]
  | c :: cs =>
    if c = sep then [] :: splitOnCharL sep cs
    else
      match splitOnCharL sep cs with
      | l :: ls => (c :: l) :: ls
      | [] => [[c]]

/-- JavaScript `split("\n")`. -/
def splitLinesL (l : List Char) : List (List Char) :=
  splitOnCharL '\n' l

/-- JavaScript `Array.prototype.join("\n")`. -/
def joinNL : List (List Char) → List Char
  | [] => []
  | [l] => l
  | l :: ls => l ++ '\n' :: joinNL ls

/-- JavaScript `toLowerCase` (ASCII fragment, enough for the inputs used). -/
def jsToLowerL (l : List Char) : List Char :=
  l.map Char.toLower

/-- JavaScript `toUpperCase` (ASCII fragment). -/
def jsToUpperL (l : List Char) : List Char :=
  l.map Char.toUpper

/-- Prefix of `l` before the first occurrence of `sub` (the whole of `l` when
`sub` does not occur): models `s.split(sub)[0]` for a non-empty `sub`. -/
def takeUntilSubL (sub : List Char) : List Char → List Char
  | [] => []
  | c :: r =>
    if sub.isPrefixOf (c :: r) then []
    else c :: takeUntilSubL sub r

/-- Split `l` around the first occurrence of `sub`: returns the part before it
and the part after it. -/
def findSubSplit (sub : List Char) : List Char → Option (List Char × List Char)
  | [] => if sub.isEmpty then some ([], []) else none
  | c :: r =>
    if sub.isPrefixOf (c :: r) then some ([], (c :: r).drop sub.length)
    else (findSubSplit sub r).map (fun p => (c :: p.1, p.2))

/-- Spread of a JavaScript `Set` built from a list: first occurrences, in
order of first appearance. -/
def jsSetDedupGo (seen : List String) : List String → List String
  | [] => []
  | x :: xs =>
    if x ∈ seen then jsSetDedupGo seen xs
    else x :: jsSetDedupGo (x :: seen) xs

/-- Models the `[...new Set(xs)]` idiom used throughout the parsers. -/
def jsSetDedup (l : List String) : List String :=
  jsSetDedupGo [] l

/-! ### Backtracking pattern combinators

Each combinator receives the remaining input and a continuation.  The order in
which split points are offered to the continuation reproduces the JavaScript
regex engine's backtracking order. -/

/-- All ways to consume a prefix of the maximal run of characters satisfying
`p`, shortest prefix first.  Each element is (consumed, rest). -/
def splitsAsc (p : Char → Bool) : List Char → List (List Char × List Char)
  | [] => [([], [])]
  | c :: cs =>
    ([], c :: cs) ::
      (if p c then (splitsAsc p cs).map (fun pr => (c :: pr.1, pr.2)) else [])

/-- First continuation success over a list of candidates. -/
def firstSome {α β : Type} : List α → (α → Option β) → Option β
  | [], _ => none
  | a :: r, f =>
    match f a with
    | some b => some b
    | none => firstSome r f

/-- Greedy `p*`: split points tried longest-consumed first. -/
def star {β : Type} (p : Char → Bool) (k : List Char → Option β) (cs : List Char) : Option β :=
  firstSome (splitsAsc p cs).reverse (fun pr => k pr.2)

/-- Greedy `p*` with the consumed run passed to the continuation. -/
def starCap {β : Type} (p : Char → Bool) (k : List Char → List Char → Option β)
    (cs : List Char) : Option β :=
  firstSome (splitsAsc p cs).reverse (fun pr => k pr.1 pr.2)

/-- Lazy `p*?`: split points tried shortest-consumed first. -/
def starLz {β : Type} (p : Char → Bool) (k : List Char → Option β) (cs : List Char) : Option β :=
  firstSome (splitsAsc p cs) (fun pr => k pr.2)

/-- Lazy `p*?` with the consumed run passed to the continuation. -/
def starLzCap {β : Type} (p : Char → Bool) (k : List Char → List Char → Option β)
    (cs : List Char) : Option β :=
  firstSome (splitsAsc p cs) (fun pr => k pr.1 pr.2)

/-- Greedy `p+`: at least one character, longest run first. -/
def plus {β : Type} (p : Char → Bool) (k : List Char → Option β) (cs : List Char) : Option β :=
  firstSome ((splitsAsc p cs).reverse.filter (fun pr => !pr.1.isEmpty)) (fun pr => k pr.2)

/-- Greedy `p+` with the consumed run passed to the continuation. -/
def plusCap {β : Type} (p : Char → Bool) (k : List Char → List Char → Option β)
    (cs : List Char) : Option β :=
  firstSome ((splitsAsc p cs).reverse.filter (fun pr => !pr.1.isEmpty))
    (fun pr => k pr.1 pr.2)

/-- Literal string. -/
def lit {β : Type} (s : String) (k : List Char → Option β) (cs : List Char) : Option β :=
  if s.toList.isPrefixOf cs then k (cs.drop s.toList.length) else none

/-- One character satisfying `p`. -/
def chr {β : Type} (p : Char → Bool) (k : Char → List Char → Option β)
    (cs : List Char) : Option β :=
  match cs with
  | [] => none
  | c :: r => if p c then k c r else none

/-- Greedy optional character (`c?` in a regex): try consuming first. -/
def optChr {β : Type} (p : Char → Bool) (k : List Char → Option β)
    (cs : List Char) : Option β :=
  match cs with
  | [] => k []
  | c :: r =>
    if p c then
      match k r with
      | some b => some b
      | none => k (c :: r)
    else k (c :: r)

/-- The prefix of `cs` that was consumed to reach `rest`. -/
def spanTo (cs rest : List Char) : List Char :=
  cs.take (cs.length - rest.length)

/-! ### Global and first-match drivers

`jsScanAll` models a `while ((m = re.exec(s)) !== null)` loop with a `g` flag:
matches are found leftmost-first and the scan resumes after each match (with
the JavaScript one-character bump on an empty match).  `jsFirstMatch` models
`String.prototype.match` with no `g` flag. -/

def scanAllAux {α : Type} (try_ : List Char → Option (α × List Char)) :
    Nat → List Char → List α
  | 0, _ => []
  | _ + 1, [] =>
    match try_ [] with
    | some (a, _) => [a]
    | none => []
  | f + 1, c :: cs =>
    match try_ (c :: cs) with
    | some (a, rest) =>
      if rest.length < cs.length + 1 then a :: scanAllAux try_ f rest
      else a :: scanAllAux try_ f cs
    | none => scanAllAux try_ f cs

/-- All matches of a pattern, left to right. -/
def jsScanAll {α : Type} (try_ : List Char → Option (α × List Char)) (cs : List Char) :
    List α :=
  scanAllAux try_ (cs.length + 1) cs

def firstMatchAux {α : Type} (try_ : List Char → Option α) :
    Nat → List Char → Option α
  | 0, _ => none
  | _ + 1, [] => try_ []
  | f + 1, c :: cs =>
    match try_ (c :: cs) with
    | some a => some a
    | none => firstMatchAux try_ f cs

/-- First match of a pattern, if any. -/
def jsFirstMatch {α : Type} (try_ : List Char → Option α) (cs : List Char) : Option α :=
  firstMatchAux try_ (cs.length + 1) cs

/-- Left-to-right removal of the first-matching token at each position: models
a `String.prototype.replace` with a global alternation of literal tokens and
an empty replacement. -/
def removeToksAux (toks : List (List Char)) : Nat → List Char → List Char
  | 0, cs => cs
  | _ + 1, [] => []
  | f + 1, c :: cs =>
    match toks.find? (fun t => t.isPrefixOf (c :: cs)) with
    | some t => removeToksAux toks f ((c :: cs).drop t.length)
    | none => c :: removeToksAux toks f cs

def removeToks (toks : List String) (cs : List Char) : List Char :=
  removeToksAux (toks.map String.toList) (cs.length + 1) cs

/-- JavaScript `x || dflt` for a string-valued `x` that may be `undefined` or
empty (both falsy). -/
def jsOrString (x : Option String) (dflt : String) : String :=
  match x with
  | some s => if s = "" then dflt else s
  | none => dflt

/-! ## Component parser (src/utils/component-parser.ts) -/

/-- Export classification of `component-parser.ts`. -/
inductive ExportType
  | component
  | type
  | function
  | const
deriving DecidableEq, Repr

structure PropDefinition where
  name : String
  type : String
  required : Bool
  description : Option String
  defaultValue : Option String
deriving DecidableEq, Repr

structure ExportDefinition where
  name : String
  type : ExportType
  isDefault : Bool
deriving DecidableEq, Repr

structure ImportDefinition where
  module : String
  imports : List String
  isDefault : Option Bool
  isNamespace : Option Bool
deriving DecidableEq, Repr

structure ComponentMetadata where
  name : String
  description : Option String
  props : List PropDefinition
  exports : List ExportDefinition
  imports : List ImportDefinition
  dependencies : List String
  hasTests : Bool
  hasStories : Bool
  hasDocumentation : Bool
deriving DecidableEq, Repr

/-- Character class `[@\w\/\-\.]` of the dependency-name capture. -/
def depCharC (c : Char) : Bool :=
  c = '@' || wordChar c || c = '/' || c = '-' || c = '.'

/-- Matcher for one occurrence of
`import\s+.*?\s+from\s+['"]([@\w\/\-\.]+)['"]`; yields the captured module
specifier. -/
def tryImportDep (cs : List Char) : Option (List Char × List Char) :=
  lit "import" (fun cs1 =>
  plus jsSpace (fun cs2 =>
  starLz (fun c => c != '\n') (fun cs3 =>
  plus jsSpace (fun cs4 =>
  lit "from" (fun cs5 =>
  plus jsSpace (fun cs6 =>
  chr (fun c => c = '\'' || c = '"') (fun _ cs7 =>
  plusCap depCharC (fun dep cs8 =>
  chr (fun c => c = '\'' || c = '"') (fun _ cs9 =>
  some (dep, cs9)) cs8) cs7) cs6) cs5) cs4) cs3) cs2) cs1) cs

/-- The dependency specifiers collected by `extractImportsFromCode` before
deduplication, with the relative/alias prefixes already excluded. -/
def rawDependencyMatches (code : String) : List String :=
  ((jsScanAll tryImportDep code.toList).filter (fun dep =>
    !("./".toList.isPrefixOf dep) && !("../".toList.isPrefixOf dep) &&
      !("@/".toList.isPrefixOf dep))).map String.mk

/-- `extractImportsFromCode` of `component-parser.ts`. -/
def extractImportsFromCode (code : String) : List String :=
  jsSetDedup (rawDependencyMatches code)

/-- `extractDependencies` of `component-parser.ts`. -/
def extractDependencies (code : String) : List String :=
  extractImportsFromCode code

/-- Shared tail `\s+(\w+)` of the first four export patterns. -/
def exportNameTail (cs : List Char) : Option (List Char × List Char) :=
  plus jsSpace (fun cs1 =>
  plusCap wordChar (fun w cs2 => some (w, cs2)) cs1) cs

/-- `export\s+(?:type|interface)\s+(\w+)`. -/
def tryExportTI (cs : List Char) : Option (List Char × List Char) :=
  lit "export" (fun cs1 =>
  plus jsSpace (fun cs2 =>
  (lit "type" exportNameTail cs2) <|> (lit "interface" exportNameTail cs2)) cs1) cs

/-- `export\s+(?:const|let|var)\s+(\w+)`. -/
def tryExportCLV (cs : List Char) : Option (List Char × List Char) :=
  lit "export" (fun cs1 =>
  plus jsSpace (fun cs2 =>
  (lit "const" exportNameTail cs2) <|> (lit "let" exportNameTail cs2) <|>
    (lit "var" exportNameTail cs2)) cs1) cs

/-- `export\s+(?:function)\s+(\w+)`. -/
def tryExportFn (cs : List Char) : Option (List Char × List Char) :=
  lit "export" (fun cs1 =>
  plus jsSpace (lit "function" exportNameTail) cs1) cs

/-- `export\s+(?:class)\s+(\w+)`. -/
def tryExportClass (cs : List Char) : Option (List Char × List Char) :=
  lit "export" (fun cs1 =>
  plus jsSpace (lit "class" exportNameTail) cs1) cs

/-- `export\s+\x7b([^\x7d]+)\x7d` (grouped named exports). -/
def tryExportNamed (cs : List Char) : Option (List Char × List Char) :=
  lit "export" (fun cs1 =>
  plus jsSpace (fun cs2 =>
  chr (fun c => c = '\x7b') (fun _ cs3 =>
  plusCap (fun c => c != '\x7d') (fun grp cs4 =>
  chr (fun c => c = '\x7d') (fun _ cs5 =>
  some (grp, cs5)) cs4) cs3) cs2) cs1) cs

/-- The export names collected by the five export regexes of
`extractExportsFromCode`, in the order the source pushes them (one full pass
per pattern), before deduplication. -/
def rawExportNames (code : String) : List String :=
  let l := code.toList
  let r1 := jsScanAll tryExportTI l
  let r2 := jsScanAll tryExportCLV l
  let r3 := jsScanAll tryExportFn l
  let r4 := jsScanAll tryExportClass l
  let r5 := (jsScanAll tryExportNamed l).flatMap (fun grp =>
    (splitOnCharL ',' grp).map (fun e => takeUntilSubL " as ".toList (trimL e)))
  (r1 ++ r2 ++ r3 ++ r4 ++ r5).map String.mk

/-- `extractExportsFromCode` of `component-parser.ts`. -/
def extractExportsFromCode (code : String) : List String :=
  jsSetDedup (rawExportNames code)

/-- `inferExportType` of `component-parser.ts`.  Returns `none` when the
JavaScript code would throw: for the empty name, `name[0]` is `undefined` and
`undefined.toUpperCase()` raises a `TypeError`. -/
def inferExportType (name : String) : Option ExportType :=
  let l := name.toList
  if "Props".toList.isSuffixOf l || "Type".toList.isSuffixOf l ||
      "Interface".toList.isSuffixOf l then
    some ExportType.type
  else
    match l with
    | [] => none
    | c :: _ =>
      if (Char.toUpper c == c) && !(l.contains '_') then some ExportType.component
      else if l.contains '_' || (jsToUpperL l == l) then some ExportType.const
      else some ExportType.function

/-- `parseExports` of `component-parser.ts`; propagates the possible
`inferExportType` exception. -/
def parseExports (exportNames : List String) : Option (List ExportDefinition) :=
  exportNames.mapM (fun name =>
    (inferExportType name).map (fun t =>
      { name := name, type := t, isDefault := false }))

/-- Probe list of `findPropsInterface`. -/
def propsProbeList (componentName : String) : List String :=
  [componentName ++ "Props", "I" ++ componentName ++ "Props",
   componentName ++ "Properties", "CommonProps"]

/-- The probing loop of `findPropsInterface`: first pattern with a textual
`type `/`interface ` occurrence wins. -/
def probeLoop (code : String) : List String → Option String
  | [] => none
  | p :: ps =>
    if includesS code ("type " ++ p) || includesS code ("interface " ++ p) then some p
    else probeLoop code ps

/-- `findPropsInterface` of `component-parser.ts`. -/
def findPropsInterface (code componentName : String) : Option String :=
  probeLoop code (propsProbeList componentName)

/-- Tail `\s+NAME\s*=?\s*\x7b([^\x7d]*)\x7d` of the interface-declaration
pattern. -/
def interfaceTail (interfaceName : String) (cs : List Char) : Option (List Char × List Char) :=
  plus jsSpace (fun cs1 =>
  lit interfaceName (fun cs2 =>
  star jsSpace (fun cs3 =>
  optChr (fun c => c = '=') (fun cs4 =>
  star jsSpace (fun cs5 =>
  chr (fun c => c = '\x7b') (fun _ cs6 =>
  starCap (fun c => c != '\x7d') (fun body cs7 =>
  chr (fun c => c = '\x7d') (fun _ cs8 =>
  some (body, cs8)) cs7) cs6) cs5) cs4) cs3) cs2) cs1) cs

/-- `(?:type|interface)\s+NAME\s*=?\s*\x7b([^\x7d]*)\x7d`; yields the
captured interface body. -/
def tryInterfaceDecl (interfaceName : String) (cs : List Char) :
    Option (List Char × List Char) :=
  (lit "type" (interfaceTail interfaceName) cs) <|>
    (lit "interface" (interfaceTail interfaceName) cs)

/-- One property match of the interface body: captures of
`(\/\*\*\s*(.*?)\s*\*\/\s*)?(\w+)(\?)?:\s*([^;,\n]+)` as
(comment group, name, optional marker, type expression). -/
structure PropMatch where
  comment : Option (List Char)
  pname : List Char
  optionalQ : Bool
  ptype : List Char
deriving DecidableEq, Repr

/-- Tail `(\w+)(\?)?:\s*([^;,\n]+)` of the property pattern. -/
def tryPropTail (comment : Option (List Char)) (cs : List Char) :
    Option (PropMatch × List Char) :=
  plusCap wordChar (fun name cs1 =>
    let afterColon : Bool → List Char → Option (PropMatch × List Char) :=
      fun opt cs2 =>
        star jsSpace (fun cs3 =>
        plusCap (fun c => c != ';' && c != ',' && c != '\n') (fun ty cs4 =>
        some ({ comment := comment, pname := name, optionalQ := opt, ptype := ty },
          cs4)) cs3) cs2
    match cs1 with
    | '?' :: ':' :: r => afterColon true r
    | ':' :: r => afterColon false r
    | _ => none) cs

/-- The optional JSDoc-comment prefix `\/\*\*\s*(.*?)\s*\*\/\s*` of the
property pattern (inner capture is the lazy run, which cannot cross a line
break because the pattern has no `s` flag). -/
def tryPropWithComment (cs : List Char) : Option (PropMatch × List Char) :=
  lit "/**" (fun cs1 =>
  star jsSpace (fun cs2 =>
  starLzCap (fun c => c != '\n') (fun g2 cs3 =>
  star jsSpace (fun cs4 =>
  lit "*/" (fun cs5 =>
  star jsSpace (tryPropTail (some g2)) cs5) cs4) cs3) cs2) cs1) cs

/-- Full property pattern: the optional comment group is greedy, so the
with-comment alternative is tried first at each position. -/
def tryProp (cs : List Char) : Option (PropMatch × List Char) :=
  (tryPropWithComment cs) <|> (tryPropTail none cs)

/-- The simpler retry pattern `(\w+)(\?)?:\s*([^;,\n]+)`. -/
def trySimpleProp (cs : List Char) : Option (PropMatch × List Char) :=
  tryPropTail none cs

/-- Builds a `PropDefinition` from a match of the full property pattern
(`comment ? comment.trim() : undefined` treats an empty capture as absent). -/
def mkPropFromMatch (m : PropMatch) : PropDefinition :=
  { name := String.mk m.pname
    type := String.mk (trimL m.ptype)
    required := !m.optionalQ
    description :=
      match m.comment with
      | some g => if g.isEmpty then none else some (String.mk (trimL g))
      | none => none
    defaultValue := none }

/-- The comment-recovery of the simple retry: look one line above the first
body line containing `name:`. -/
def simplePropDescription (interfaceBody : List Char) (name : List Char) :
    Option String :=
  let lines := splitLinesL interfaceBody
  match lines.findIdx? (fun line => includesL line (name ++ [':'])) with
  | none => none
  | some i =>
    if i > 0 then
      match lines.get? (i - 1) with
      | none => none
      | some prev =>
        let prevLine := trimL prev
        if "/**".toList.isPrefixOf prevLine || "*".toList.isPrefixOf prevLine ||
            "//".toList.isPrefixOf prevLine then
          some (String.mk (trimL (removeToks ["/**", "*/", "*", "//"] prevLine)))
        else none
    else none

/-- Builds a `PropDefinition` from a match of the simple retry pattern. -/
def mkSimpleProp (interfaceBody : List Char) (m : PropMatch) : PropDefinition :=
  { name := String.mk m.pname
    type := String.mk (trimL m.ptype)
    required := !m.optionalQ
    description := simplePropDescription interfaceBody m.pname
    defaultValue := none }

/-- `extractPropsFromCode` of `component-parser.ts`. -/
def extractPropsFromCode (code interfaceName : String) : List PropDefinition :=
  match jsFirstMatch (fun cs => (tryInterfaceDecl interfaceName cs).map (·.1))
      code.toList with
  | none => []
  | some interfaceBody =>
    let props := (jsScanAll tryProp interfaceBody).map mkPropFromMatch
    if props.isEmpty then
      (jsScanAll trySimpleProp interfaceBody).map (mkSimpleProp interfaceBody)
    else props

/-- Maximal run of `([^*]|\*(?!/))*`: consumes up to (but not into) the first
`*/`, or to the end of input. -/
def jsdocRest : List Char → List Char
  | [] => []
  | '*' :: '/' :: r => '*' :: '/' :: r
  | _ :: r => jsdocRest r

/-- Matcher for `\/\*\*([^*]|\*(?!\/))*\*\/\s*export\s+const\s+NAME`; yields
the full match. -/
def tryCompDesc (componentName : String) (cs : List Char) : Option (List Char) :=
  let tail : List Char → Option (List Char) := fun cs1 =>
    let rest := jsdocRest cs1
    lit "*/" (fun cs2 =>
    star jsSpace (fun cs3 =>
    lit "export" (fun cs4 =>
    plus jsSpace (fun cs5 =>
    lit "const" (fun cs6 =>
    plus jsSpace (fun cs7 =>
    lit componentName (fun cs8 => some cs8) cs7) cs6) cs5) cs4) cs3) cs2) rest
  lit "/**" (fun cs1 => (tail cs1).map (fun rest => spanTo cs rest)) cs

/-- `extractComponentDescription` of `component-parser.ts`: first line of the
token-stripped full match. -/
def extractComponentDescription (code componentName : String) : Option String :=
  (jsFirstMatch (tryCompDesc componentName) code.toList).map (fun full =>
    let stripped := trimL (removeToks ["/**", "*/", "*"] full)
    String.mk (trimL ((splitLinesL stripped).headD [])))

/-- The inner alternation `(?:\x7b[^\x7d]*\x7d|\*\s+as\s+\w+|\w+)` of the
structured import pattern. -/
def importSpecCore (cs : List Char) : Option (List Char) :=
  (chr (fun c => c = '\x7b') (fun _ cs1 =>
    starCap (fun c => c != '\x7d') (fun _ cs2 =>
    chr (fun c => c = '\x7d') (fun _ cs3 => some cs3) cs2) cs1) cs) <|>
  (lit "*" (fun cs1 =>
    plus jsSpace (fun cs2 =>
    lit "as" (fun cs3 =>
    plus jsSpace (fun cs4 =>
    plusCap wordChar (fun _ cs5 => some cs5) cs4) cs3) cs2) cs1) cs) <|>
  (plusCap wordChar (fun _ cs1 => some cs1) cs)

/-- Group 1 `((?:\w+,\s*)?(?:\x7b[^\x7d]*\x7d|\*\s+as\s+\w+|\w+))` of the
structured import pattern: yields the captured text and the rest. -/
def importSpecGroup (cs : List Char) : Option (List Char × List Char) :=
  let withPre :=
    plusCap wordChar (fun _ cs1 =>
      match cs1 with
      | ',' :: cs2 => star jsSpace importSpecCore cs2
      | _ => none) cs
  match withPre with
  | some rest => some (spanTo cs rest, rest)
  | none => (importSpecCore cs).map (fun rest => (spanTo cs rest, rest))

/-- Matcher for
`import\s+((?:\w+,\s*)?(?:\x7b[^\x7d]*\x7d|\*\s+as\s+\w+|\w+))\s+from\s+['"]([^'"]+)['"]`;
yields (import specifier group, module specifier). -/
def tryStructImport (cs : List Char) : Option ((List Char × List Char) × List Char) :=
  lit "import" (fun cs1 =>
  plus jsSpace (fun cs2 =>
  match importSpecGroup cs2 with
  | none => none
  | some (g1, cs3) =>
    plus jsSpace (fun cs4 =>
    lit "from" (fun cs5 =>
    plus jsSpace (fun cs6 =>
    chr (fun c => c = '\'' || c = '"') (fun _ cs7 =>
    plusCap (fun c => c != '\'' && c != '"') (fun m cs8 =>
    chr (fun c => c = '\'' || c = '"') (fun _ cs9 =>
    some ((g1, m), cs9)) cs8) cs7) cs6) cs5) cs4) cs3) cs1) cs

/-- The namespace-name extraction `\*\s+as\s+(\w+)` used on a
namespace-style specifier. -/
def tryNamespaceName (cs : List Char) : Option (List Char) :=
  lit "*" (fun cs1 =>
  plus jsSpace (fun cs2 =>
  lit "as" (fun cs3 =>
  plus jsSpace (fun cs4 =>
  plusCap wordChar (fun w _ => some w) cs4) cs3) cs2) cs1) cs

/-- Classification of one structured-import match (the body of the
`parseImports` loop).  Yields zero or one `ImportDefinition`. -/
def classifyImport (g1 m : List Char) : List ImportDefinition :=
  let module := String.mk m
  if includesL g1 "* as ".toList then
    match jsFirstMatch tryNamespaceName g1 with
    | some nm => [{ module := module, imports := [String.mk nm],
                    isDefault := none, isNamespace := some true }]
    | none => []
  else if g1.contains '\x7b' then
    let named := (((splitOnCharL ','
        (g1.filter (fun c => c != '\x7b' && c != '\x7d'))).map trimL).filter
        (fun s => !s.isEmpty)).map String.mk
    [{ module := module, imports := named, isDefault := none, isNamespace := none }]
  else
    [{ module := module, imports := [String.mk (trimL g1)],
       isDefault := some true, isNamespace := none }]

/-- `parseImports` of `component-parser.ts`. -/
def parseImports (code : String) : List ImportDefinition :=
  (jsScanAll tryStructImport code.toList).flatMap (fun pr => classifyImport pr.1 pr.2)

/-- `parseComponentMetadata` of `component-parser.ts`; `none` models the
`TypeError` thrown by `inferExportType` on an empty exported name. -/
def parseComponentMetadata (componentName code : String) : Option ComponentMetadata :=
  let exportNames := extractExportsFromCode code
  let dependencies := extractDependencies code
  let props :=
    match findPropsInterface code componentName with
    | some n => extractPropsFromCode code n
    | none => []
  let description := extractComponentDescription code componentName
  (parseExports exportNames).map (fun exps =>
    { name := componentName
      description := description
      props := props
      exports := exps
      imports := parseImports code
      dependencies := dependencies
      hasTests := false
      hasStories := false
      hasDocumentation := false })

/-! ## Story parser (src/utils/story-parser.ts) -/

/-- Values produced by the object-literal mini-parser.  A numeric literal is
kept as its source text: the claims under verification never inspect the
floating-point value of `Number(...)`. -/
inductive JSValue
  | str (s : String)
  | bool (b : Bool)
  | num (numeral : String)
deriving DecidableEq, Repr

/-- A JavaScript object built by repeated `result[key] = value` assignments:
insertion-ordered keys, later assignments overwrite in place. -/
abbrev JSObj := List (String × JSValue)

def upsert (obj : JSObj) (k : String) (v : JSValue) : JSObj :=
  if obj.any (fun p => p.1 == k) then
    obj.map (fun p => if p.1 == k then (k, v) else p)
  else obj ++ [(k, v)]

/-- Conservative model of `!isNaN(Number(t))` for a trimmed `t`: the empty
string and plain decimal numerals coerce; exotic forms (hex, exponent,
`Infinity`) are modelled as non-numeric and never arise in the inputs used. -/
def jsIsNumeric (t : List Char) : Bool :=
  match t with
  | [] => true
  | _ =>
    let t1 := match t with
      | '+' :: r => r
      | '-' :: r => r
      | r => r
    let ds := t1.takeWhile Char.isDigit
    let rest := t1.dropWhile Char.isDigit
    match rest with
    | [] => !ds.isEmpty
    | '.' :: r2 =>
      (!ds.isEmpty || !(r2.takeWhile Char.isDigit).isEmpty) &&
        (r2.dropWhile Char.isDigit).isEmpty
    | _ => false

/-- The value-coercion chain of `parseObjectLiteral`. -/
def coerceValue (v : List Char) : JSValue :=
  let t := trimL v
  match t.head? with
  | some c =>
    if c = '\'' || c = '"' then JSValue.str (String.mk ((t.drop 1).dropLast))
    else if t == "true".toList then JSValue.bool true
    else if t == "false".toList then JSValue.bool false
    else if jsIsNumeric t then JSValue.num (String.mk t)
    else JSValue.str (String.mk t)
  | none => JSValue.num ""

/-- One key/value match `(\w+):\s*([^,\n\x7d]+)` of the object-literal
mini-parser. -/
def tryOLProp (cs : List Char) : Option ((List Char × List Char) × List Char) :=
  plusCap wordChar (fun key cs1 =>
  chr (fun c => c = ':') (fun _ cs2 =>
  star jsSpace (fun cs3 =>
  plusCap (fun c => c != ',' && c != '\n' && c != '\x7d') (fun v cs4 =>
  some ((key, v), cs4)) cs3) cs2) cs1) cs

/-- `parseObjectLiteral` of `story-parser.ts`. -/
def parseObjectLiteral (objectContent : List Char) : JSObj :=
  (jsScanAll tryOLProp objectContent).foldl
    (fun acc pr => upsert acc (String.mk pr.1) (coerceValue pr.2)) []

structure StoryDefinition where
  name : String
  args : Option JSObj
  parameters : Option JSObj
  source : String
  description : Option String
deriving DecidableEq, Repr

structure StorybookMeta where
  title : String
  component : String
  stories : List StoryDefinition
  argTypes : Option JSObj
  parameters : Option JSObj
  decorators : Option (List String)
deriving DecidableEq, Repr

structure StoryMetadata where
  componentName : String
  meta : StorybookMeta
  totalStories : Nat
  hasInteractiveStories : Bool
  hasExamples : Bool
deriving DecidableEq, Repr

/-- One match of a story-declaration pattern: captured name, full match and
captured right-hand-side content. -/
structure StoryMatch where
  sname : String
  full : String
  content : String
deriving DecidableEq, Repr

/-- `export\s+const\s+(\w+):\s*StoryFn[^=]*=\s*([^;]+);?`. -/
def tryTypedStory (cs : List Char) : Option (StoryMatch × List Char) :=
  lit "export" (fun cs1 =>
  plus jsSpace (fun cs2 =>
  lit "const" (fun cs3 =>
  plus jsSpace (fun cs4 =>
  plusCap wordChar (fun name cs5 =>
  chr (fun c => c = ':') (fun _ cs6 =>
  star jsSpace (fun cs7 =>
  lit "StoryFn" (fun cs8 =>
  star (fun c => c != '=') (fun cs9 =>
  chr (fun c => c = '=') (fun _ cs10 =>
  star jsSpace (fun cs11 =>
  plusCap (fun c => c != ';') (fun content cs12 =>
  optChr (fun c => c = ';') (fun cs13 =>
  some ({ sname := String.mk name, full := String.mk (spanTo cs cs13),
          content := String.mk content }, cs13))
    cs12) cs11) cs10) cs9) cs8) cs7) cs6) cs5) cs4) cs3) cs2) cs1) cs

/-- `export\s+const\s+(\w+)\s*=\s*\(\)\s*=>\s*\x7b([^\x7d]*)\x7d`. -/
def trySimpleStory (cs : List Char) : Option (StoryMatch × List Char) :=
  lit "export" (fun cs1 =>
  plus jsSpace (fun cs2 =>
  lit "const" (fun cs3 =>
  plus jsSpace (fun cs4 =>
  plusCap wordChar (fun name cs5 =>
  star jsSpace (fun cs6 =>
  chr (fun c => c = '=') (fun _ cs7 =>
  star jsSpace (fun cs8 =>
  lit "()" (fun cs9 =>
  star jsSpace (fun cs10 =>
  lit "=>" (fun cs11 =>
  star jsSpace (fun cs12 =>
  chr (fun c => c = '\x7b') (fun _ cs13 =>
  starCap (fun c => c != '\x7d') (fun content cs14 =>
  chr (fun c => c = '\x7d') (fun _ cs15 =>
  some ({ sname := String.mk name, full := String.mk (spanTo cs cs15),
          content := String.mk content }, cs15))
    cs14) cs13) cs12) cs11) cs10) cs9) cs8) cs7) cs6) cs5) cs4) cs3) cs2) cs1) cs

/-- All matches of the typed story pattern, in text order. -/
def typedMatches (storyCode : String) : List StoryMatch :=
  jsScanAll tryTypedStory storyCode.toList

/-- All matches of the bare-function story pattern, in text order. -/
def plainMatches (storyCode : String) : List StoryMatch :=
  jsScanAll trySimpleStory storyCode.toList

/-- `\x7b([^\x7d]*)\x7d`: first-match brace block, captured interior. -/
def tryBraceBlock (cs : List Char) : Option (List Char × List Char) :=
  chr (fun c => c = '\x7b') (fun _ cs1 =>
  starCap (fun c => c != '\x7d') (fun inner cs2 =>
  chr (fun c => c = '\x7d') (fun _ cs3 => some (inner, cs3)) cs2) cs1) cs

/-- Matcher for `(\/\*\*[^*]*\*\/)?\s*export\s+const\s+NAME` at one position;
returns the optional comment-group capture on success. -/
def tryStoryDescAt (storyName : String) (cs : List Char) : Option (Option (List Char)) :=
  let tail : List Char → Option (List Char) := fun csx =>
    star jsSpace (fun cs1 =>
    lit "export" (fun cs2 =>
    plus jsSpace (fun cs3 =>
    lit "const" (fun cs4 =>
    plus jsSpace (fun cs5 =>
    lit storyName (fun cs6 => some cs6) cs5) cs4) cs3) cs2) cs1) csx
  let withComment :=
    lit "/**" (fun cs1 =>
    starCap (fun c => c != '*') (fun _ cs2 =>
    lit "*/" (fun cs3 => some cs3) cs2) cs1) cs
  match withComment with
  | some rest =>
    match tail rest with
    | some _ => some (some (spanTo cs rest))
    | none => (tail cs).map (fun _ => none)
  | none => (tail cs).map (fun _ => none)

/-- `extractStoryDescription` of `story-parser.ts`. -/
def extractStoryDescription (storyCode storyName : String) : Option String :=
  match jsFirstMatch (tryStoryDescAt storyName) storyCode.toList with
  | some (some g) =>
    some (String.mk (trimL ((splitLinesL (trimL (removeToks ["/**", "*/", "*"] g))).headD [])))
  | _ => none

/-- Builds the story record of one typed match (`args` from the first brace
block of the captured content, if any). -/
def mkTypedStory (storyCode : String) (m : StoryMatch) : StoryDefinition :=
  { name := m.sname
    args := (jsFirstMatch (fun cs => (tryBraceBlock cs).map (·.1)) m.content.toList).map
      parseObjectLiteral
    parameters := none
    source := m.full
    description := extractStoryDescription storyCode m.sname }

/-- Builds the story record of one bare-function match. -/
def mkPlainStory (storyCode : String) (m : StoryMatch) : StoryDefinition :=
  { name := m.sname
    args := none
    parameters := none
    source := m.full
    description := extractStoryDescription storyCode m.sname }

/-- The skip-if-already-present push of the bare-function loop. -/
def addPlainStory (acc : List StoryDefinition) (s : StoryDefinition) :
    List StoryDefinition :=
  if acc.any (fun t => t.name == s.name) then acc else acc ++ [s]

/-- `extractStories` of `story-parser.ts`. -/
def extractStories (storyCode : String) : List StoryDefinition :=
  ((plainMatches storyCode).map (mkPlainStory storyCode)).foldl addPlainStory
    ((typedMatches storyCode).map (mkTypedStory storyCode))

/-- `export\s+default\s*\x7b([^\x7d]*)\x7d`: the default-export block. -/
def tryDefaultExportBlock (cs : List Char) : Option (List Char) :=
  lit "export" (fun cs1 =>
  plus jsSpace (fun cs2 =>
  lit "default" (fun cs3 =>
  star jsSpace (fun cs4 =>
  (tryBraceBlock cs4).map (·.1)) cs3) cs2) cs1) cs

/-- `title:\s*['"\x60]([^'"\x60]+)['"\x60]`. -/
def tryMetaTitle (cs : List Char) : Option (List Char) :=
  lit "title:" (fun cs1 =>
  star jsSpace (fun cs2 =>
  chr (fun c => c = '\'' || c = '"' || c = '\x60') (fun _ cs3 =>
  plusCap (fun c => c != '\'' && c != '"' && c != '\x60') (fun t cs4 =>
  chr (fun c => c = '\'' || c = '"' || c = '\x60') (fun _ _ =>
  some t) cs4) cs3) cs2) cs1) cs

/-- `component:\s*(\w+)`. -/
def tryMetaComponent (cs : List Char) : Option (List Char) :=
  lit "component:" (fun cs1 =>
  star jsSpace (fun cs2 =>
  plusCap wordChar (fun w _ => some w) cs2) cs1) cs

/-- `argTypes:\s*\x7b([^\x7d]*)\x7d`. -/
def tryArgTypesBlock (cs : List Char) : Option (List Char) :=
  lit "argTypes:" (fun cs1 =>
  star jsSpace (fun cs2 =>
  (tryBraceBlock cs2).map (·.1)) cs1) cs

/-- `parameters:\s*\x7b([^\x7d]*)\x7d`. -/
def tryParametersBlock (cs : List Char) : Option (List Char) :=
  lit "parameters:" (fun cs1 =>
  star jsSpace (fun cs2 =>
  (tryBraceBlock cs2).map (·.1)) cs1) cs

/-- `extractStorybookMeta` of `story-parser.ts` (without the story list). -/
def extractStorybookMeta (storyCode componentName : String) : StorybookMeta :=
  match jsFirstMatch tryDefaultExportBlock storyCode.toList with
  | none =>
    { title := "", component := componentName, stories := [],
      argTypes := none, parameters := none, decorators := none }
  | some metaContent =>
    { title :=
        match jsFirstMatch tryMetaTitle metaContent with
        | some t => String.mk t
        | none => ""
      component :=
        match jsFirstMatch tryMetaComponent metaContent with
        | some c => String.mk c
        | none => componentName
      stories := []
      argTypes := (jsFirstMatch tryArgTypesBlock metaContent).map parseObjectLiteral
      parameters := (jsFirstMatch tryParametersBlock metaContent).map parseObjectLiteral
      decorators := none }

/-- `parseStoryMetadata` of `story-parser.ts`. -/
def parseStoryMetadata (componentName storyCode : String) : StoryMetadata :=
  let meta := extractStorybookMeta storyCode componentName
  let stories := extractStories storyCode
  { componentName := componentName
    meta := { meta with stories := stories }
    totalStories := stories.length
    hasInteractiveStories := stories.any (fun story =>
      match story.args with
      | some args => !args.isEmpty
      | none => false)
    hasExamples := !stories.isEmpty }

/-! ## MDX parser (mdx-parser file) -/

inductive CEType
  | code
  | component
  | exampleFrame
deriving DecidableEq, Repr

structure CodeExample where
  code : String
  language : Option String
  title : Option String
  description : Option String
  type : CEType
deriving DecidableEq, Repr

structure MDXSection where
  title : String
  level : Nat
  content : String
  examples : List CodeExample
  startLine : Nat
  endLine : Nat
deriving DecidableEq, Repr

structure MDXContent where
  title : String
  content : String
  sections : List MDXSection
  examples : List CodeExample
  metadata : List (String × String)
  imports : List String
  components : List String
deriving DecidableEq, Repr

/-- Literal character-list prefix. -/
def litL {β : Type} (l : List Char) (k : List Char → Option β) (cs : List Char) :
    Option β :=
  if l.isPrefixOf cs then k (cs.drop l.length) else none

/-- String-valued insertion with overwrite, for the front-matter mapping. -/
def upsertS (obj : List (String × String)) (k v : String) : List (String × String) :=
  if obj.any (fun p => p.1 == k) then
    obj.map (fun p => if p.1 == k then (k, v) else p)
  else obj ++ [(k, v)]

/-- The `replace(/^['"]|['"]$/g, "")` quote stripping of the front-matter
values. -/
def stripEdgeQuotes (v : List Char) : List Char :=
  let v1 := match v with
    | c :: r => if c = '\'' || c = '"' then r else c :: r
    | [] => []
  match v1.getLast? with
  | some c => if c = '\'' || c = '"' then v1.dropLast else v1
  | none => v1

/-- One front-matter line: split at the first colon (which must not be the
first character), trim both parts, strip one surrounding quote pair. -/
def addFMLine (obj : List (String × String)) (line : List Char) :
    List (String × String) :=
  match subIdxL line [':'] with
  | some colonIndex =>
    if colonIndex > 0 then
      upsertS obj (String.mk (trimL (line.take colonIndex)))
        (String.mk (stripEdgeQuotes (trimL (line.drop (colonIndex + 1)))))
    else obj
  | none => obj

/-- `extractFrontmatter`: the `^---\n(.*?)\n---` block parsed line by line. -/
def extractFrontmatter (mdx : List Char) : List (String × String) :=
  if "---\n".toList.isPrefixOf mdx then
    match findSubSplit "\n---".toList (mdx.drop 4) with
    | none => []
    | some (body, _) => (splitLinesL body).foldl addFMLine []
  else []

/-- `import\s+.*?\s+from\s+['"]([^'"]+)['"]` (documentation variant: the
module class excludes only quotes). -/
def tryImportMod (cs : List Char) : Option (List Char × List Char) :=
  lit "import" (fun cs1 =>
  plus jsSpace (fun cs2 =>
  starLz (fun c => c != '\n') (fun cs3 =>
  plus jsSpace (fun cs4 =>
  lit "from" (fun cs5 =>
  plus jsSpace (fun cs6 =>
  chr (fun c => c = '\'' || c = '"') (fun _ cs7 =>
  plusCap (fun c => c != '\'' && c != '"') (fun m cs8 =>
  chr (fun c => c = '\'' || c = '"') (fun _ cs9 =>
  some (m, cs9)) cs8) cs7) cs6) cs5) cs4) cs3) cs2) cs1) cs

/-- `extractImports` of the MDX parser: match order, no deduplication. -/
def extractImports (mdxCode : String) : List String :=
  (jsScanAll tryImportMod mdxCode.toList).map String.mk

/-- ASCII uppercase letter (the class `[A-Z]`). -/
def upperAZ (c : Char) : Bool :=
  'A' ≤ c && c ≤ 'Z'

/-- `<([A-Z]\w+)`: a capitalized tag-like token of at least two characters. -/
def tryComponentRef (cs : List Char) : Option (List Char × List Char) :=
  chr (fun c => c = '<') (fun _ cs1 =>
  chr upperAZ (fun c0 cs2 =>
  plusCap wordChar (fun w cs3 =>
  some (c0 :: w, cs3)) cs2) cs1) cs

/-- `extractComponentReferences` of the MDX parser. -/
def extractComponentReferences (mdxCode : String) : List String :=
  jsSetDedup ((jsScanAll tryComponentRef mdxCode.toList).map String.mk)

/-- The `\s+(.+)$` tail of a heading pattern, with the JavaScript backtracking
on an all-whitespace remainder: the capture is the text after the maximal
whitespace run, or the last character when everything is whitespace. -/
def titleGroup (rest : List Char) : Option (List Char) :=
  match rest with
  | [] => none
  | c :: cs =>
    if jsSpace c then
      match (c :: cs).dropWhile jsSpace with
      | [] =>
        match cs with
        | [] => none
        | _ => some [((c :: cs).reverse).headD ' ']
      | r => some r
    else none

/-- `^#\s+(.+)$` applied to one line (the main-title pattern). -/
def headingTitle1 (l : List Char) : Option (List Char) :=
  match l with
  | '#' :: rest => titleGroup rest
  | _ => none

/-- `<Meta\s+title="([^"]+)"`. -/
def tryMetaTitleAttr (cs : List Char) : Option (List Char) :=
  lit "<Meta" (fun cs1 =>
  plus jsSpace (fun cs2 =>
  lit "title=\"" (fun cs3 =>
  plusCap (fun c => c != '"') (fun t _ =>
  some t) cs3) cs2) cs1) cs

/-- `extractTitle` of the MDX parser: first `# `-heading line, else the
`<Meta title="...">` attribute. -/
def extractTitle (mdx : List Char) : Option (List Char) :=
  match firstSome (splitLinesL mdx) headingTitle1 with
  | some g => some (trimL g)
  | none => jsFirstMatch tryMetaTitleAttr mdx

/-- `^(#\x7b1,6\x7d)\s+(.+)$` applied to one line: heading level and raw
title capture. -/
def headingMatch (l : List Char) : Option (Nat × List Char) :=
  let m := (l.takeWhile (fun c => c = '#')).length
  let rest := l.dropWhile (fun c => c = '#')
  if 1 ≤ m && m ≤ 6 then (titleGroup rest).map (fun g => (m, g))
  else none

/-- `<ExampleFrame[^>]*>(.*?)<\/ExampleFrame>` (dot-all, lazy). -/
def tryExampleFrame (cs : List Char) : Option (List Char × List Char) :=
  lit "<ExampleFrame" (fun cs1 =>
  starCap (fun c => c != '>') (fun _ cs2 =>
  chr (fun c => c = '>') (fun _ cs3 =>
  starLzCap (fun _ => true) (fun inner cs4 =>
  litL "</ExampleFrame>".toList (fun cs5 =>
  some (inner, cs5)) cs4) cs3) cs2) cs1) cs

/-- One fenced code block `\x60\x60\x60(\w+)?\n(.*?)\n\x60\x60\x60`
(dot-all, lazy); yields (optional language, code). -/
def tryCodeFence (cs : List Char) : Option ((Option (List Char) × List Char) × List Char) :=
  let afterLang : Option (List Char) → List Char →
      Option ((Option (List Char) × List Char) × List Char) := fun lang cs2 =>
    chr (fun c => c = '\n') (fun _ cs3 =>
    starLzCap (fun _ => true) (fun code cs4 =>
    litL ('\n' :: "```".toList) (fun cs5 =>
    some ((lang, code), cs5)) cs4) cs3) cs2
  lit "```" (fun cs1 =>
    match plusCap wordChar (fun lang cs2 => afterLang (some lang) cs2) cs1 with
    | some r => some r
    | none => afterLang none cs1) cs

/-- `<(\w+)[^>]*>.*?<\/\1>` (dot-all, lazy, with back-reference); yields
(tag, full match). -/
def tryJsxElem (cs : List Char) : Option ((List Char × List Char) × List Char) :=
  chr (fun c => c = '<') (fun _ cs1 =>
  plusCap wordChar (fun tag cs2 =>
  starCap (fun c => c != '>') (fun _ cs3 =>
  chr (fun c => c = '>') (fun _ cs4 =>
  starLz (fun _ => true) (fun cs5 =>
  litL ('<' :: '/' :: tag ++ ['>']) (fun cs6 =>
  some ((tag, spanTo cs cs6), cs6)) cs5) cs4) cs3) cs2) cs1) cs

/-- `extractAllExamples` of the MDX parser: example frames, then fenced code
blocks, then capitalized matched JSX elements. -/
def extractAllExamplesL (mdx : List Char) : List CodeExample :=
  let frames := (jsScanAll tryExampleFrame mdx).map (fun inner =>
    { code := String.mk (trimL inner)
      language := some "jsx"
      title := none
      description := some "Interactive example"
      type := CEType.exampleFrame })
  let fences := (jsScanAll tryCodeFence mdx).map (fun pr =>
    let language := match pr.1 with
      | some lang => String.mk lang
      | none => "text"
    { code := String.mk pr.2
      language := some language
      title := none
      description := some (language ++ " code example")
      type := CEType.code })
  let jsx := ((jsScanAll tryJsxElem mdx).filter (fun pr =>
      match pr.1 with
      | c :: _ => Char.toUpper c == c
      | [] => false)).map (fun pr =>
    { code := String.mk pr.2
      language := some "jsx"
      title := none
      description := some (String.mk pr.1 ++ " usage example")
      type := CEType.component })
  frames ++ fences ++ jsx

/-- `extractExamplesFromContent` (the recursive per-section call). -/
def extractExamplesFromContent (content : List Char) : List CodeExample :=
  extractAllExamplesL content

/-- Closes one section: joined and trimmed body, recursively mined examples,
recorded line range. -/
def mkSection (t : List Char) (lv : Nat) (contentLines : List (List Char))
    (st en : Nat) : MDXSection :=
  let content := trimL (joinNL contentLines)
  { title := String.mk t
    level := lv
    content := String.mk content
    examples := extractExamplesFromContent content
    startLine := st
    endLine := en }

/-- The line loop of `extractSections`.  `n` is the total number of lines,
`i` the index of the head of the remaining list, `cur` the open section
(trimmed title, level, start line), `content` its accumulated body lines. -/
def sectionsLoop (n : Nat) : List (List Char) → Nat →
    Option (List Char × Nat × Nat) → List (List Char) → List MDXSection
  | [], _, cur, content =>
    (match cur with
     | none => []
     | some (t, lv, st) => [mkSection t lv content st (n - 1)])
  | l :: ls, i, cur, content =>
    match headingMatch l with
    | some (lv', t') =>
      let rest := sectionsLoop n ls (i + 1) (some (trimL t', lv', i)) []
      (match cur with
       | none => rest
       | some (t, lv, st) => mkSection t lv content st (i - 1) :: rest)
    | none =>
      match cur with
      | some _ => sectionsLoop n ls (i + 1) cur (content ++ [l])
      | none => sectionsLoop n ls (i + 1) none content

/-- `extractSections` of the MDX parser. -/
def extractSections (mdxCode : String) : List MDXSection :=
  let lines := splitLinesL mdxCode.toList
  sectionsLoop lines.length lines 0 none []

/-- `extractAllExamples` on a string. -/
def extractAllExamples (mdxCode : String) : List CodeExample :=
  extractAllExamplesL mdxCode.toList

/-- `parseMDXContent` of the MDX parser. -/
def parseMDXContent (componentName mdxCode : String) : MDXContent :=
  let l := mdxCode.toList
  { title := jsOrString ((extractTitle l).map String.mk) componentName
    content := mdxCode
    sections := extractSections mdxCode
    examples := extractAllExamplesL l
    metadata := extractFrontmatter l
    imports := extractImports mdxCode
    components := extractComponentReferences mdxCode }

/-! ## Theme extractor (theme-extractor file)

The scale extractors call `themeCode.match(pattern)` with a **global** regex,
so the returned array holds full match strings, not capture groups: the value
assigned to a leaf is `match[1]`, i.e. the *second full match* (or
`undefined` when the pattern matched only once).  A leaf is therefore
modelled as `Option (Option String)`: the outer layer is key presence, the
inner layer is the possibly-`undefined` assigned value. -/

/-- Leaf assigned from `match[1]` of a global `String.match`. -/
abbrev SLeaf := Option (Option String)

/-- Leaf assigned from `parseInt(match[1], 10)`; the inner `none` is `NaN`. -/
abbrev NLeaf := Option (Option Int)

/-- Leaf assigned from `parseFloat(match[1])`; the inner value is the numeral
prefix `parseFloat` would consume (`none` is `NaN`). -/
abbrev FLeaf := Option (Option String)

/-- Characters other than `:` (the class `[^:]`). -/
def notColon (c : Char) : Bool :=
  c != ':'

/-- Quote class `['"\x60]`. -/
def q3 (c : Char) : Bool :=
  c = '\'' || c = '"' || c = '\x60'

/-- `parseInt(s, 10)` restricted to plain decimal forms; `none` is `NaN`. -/
def natOfDigits (ds : List Char) : Nat :=
  ds.foldl (fun acc c => acc * 10 + (c.toNat - 48)) 0

def jsParseIntL (l : List Char) : Option Int :=
  let t := l.dropWhile jsSpace
  match t with
  | '-' :: r =>
    let ds := r.takeWhile Char.isDigit
    if ds.isEmpty then none else some (-(natOfDigits ds : Int))
  | '+' :: r =>
    let ds := r.takeWhile Char.isDigit
    if ds.isEmpty then none else some (natOfDigits ds : Int)
  | r =>
    let ds := r.takeWhile Char.isDigit
    if ds.isEmpty then none else some (natOfDigits ds : Int)

/-- The numeral prefix consumed by `parseFloat`, as text; `none` is `NaN`. -/
def jsParseFloatPrefix (l : List Char) : Option String :=
  let t := l.dropWhile jsSpace
  let core := match t with
    | '-' :: r => r
    | '+' :: r => r
    | r => r
  let pre := core.takeWhile (fun c => c.isDigit || c = '.')
  if pre.any Char.isDigit then
    some (String.mk (t.take ((t.length - core.length) + pre.length)))
  else none

/-- The chained `K1[^:]*K2[^:]*...` key part of the theme patterns. -/
def kvChain {β : Type} (keys : List String) (k : List Char → Option β) :
    List Char → Option β :=
  match keys with
  | [] => k
  | key :: rest => fun cs => star notColon (fun cs1 => lit key (kvChain rest k) cs1) cs

/-- `PRE[^:]*K1[^:]*...[^:]*:\s*['"\x60]([^'"\x60]+)['"\x60]`; yields
(full match, capture). -/
def tryKVQ (pre : String) (keys : List String) (cs : List Char) :
    Option ((List Char × List Char) × List Char) :=
  lit pre (kvChain keys (fun cs2 =>
    star notColon (fun cs3 =>
    chr (fun c => c = ':') (fun _ cs4 =>
    star jsSpace (fun cs5 =>
    chr q3 (fun _ cs6 =>
    plusCap (fun c => !(q3 c)) (fun v cs7 =>
    chr q3 (fun _ cs8 =>
    some ((spanTo cs cs8, v), cs8)) cs7) cs6) cs5) cs4) cs3) cs2)) cs

/-- Like `tryKVQ` but with a `(\d+)` value. -/
def tryKVN (pre : String) (keys : List String) (cs : List Char) :
    Option ((List Char × List Char) × List Char) :=
  lit pre (kvChain keys (fun cs2 =>
    star notColon (fun cs3 =>
    chr (fun c => c = ':') (fun _ cs4 =>
    star jsSpace (fun cs5 =>
    plusCap Char.isDigit (fun v cs6 =>
    some ((spanTo cs cs6, v), cs6)) cs5) cs4) cs3) cs2)) cs

/-- Like `tryKVQ` but with a `([\d.]+)` value. -/
def tryKVF (pre : String) (keys : List String) (cs : List Char) :
    Option ((List Char × List Char) × List Char) :=
  lit pre (kvChain keys (fun cs2 =>
    star notColon (fun cs3 =>
    chr (fun c => c = ':') (fun _ cs4 =>
    star jsSpace (fun cs5 =>
    plusCap (fun c => c.isDigit || c = '.') (fun v cs6 =>
    some ((spanTo cs cs6, v), cs6)) cs5) cs4) cs3) cs2)) cs

/-- `radius[^:]*:\s*['"\x60]?([^'"\x60\s,\x7d]+)['"\x60]?`. -/
def tryRadius (cs : List Char) : Option ((List Char × List Char) × List Char) :=
  lit "radius" (fun cs1 =>
  star notColon (fun cs2 =>
  chr (fun c => c = ':') (fun _ cs3 =>
  star jsSpace (fun cs4 =>
  optChr q3 (fun cs5 =>
  plusCap (fun c => !(q3 c) && !(jsSpace c) && c != ',' && c != '\x7d') (fun v cs6 =>
  optChr q3 (fun cs7 =>
  some ((spanTo cs cs7, v), cs7)) cs6) cs5) cs4) cs3) cs2) cs1) cs

/-- The leaf assigned from a global-`match` result: absent when there is no
match, otherwise the second full match (or `undefined`). -/
def fieldOf (ms : List (List Char × List Char)) : SLeaf :=
  match ms with
  | [] => none
  | _ => some ((ms.get? 1).map (fun pr => String.mk pr.1))

def numFieldOf (ms : List (List Char × List Char)) : NLeaf :=
  match ms with
  | [] => none
  | _ =>
    some (match ms.get? 1 with
      | some pr => jsParseIntL pr.1
      | none => none)

def floatFieldOf (ms : List (List Char × List Char)) : FLeaf :=
  match ms with
  | [] => none
  | _ =>
    some (match ms.get? 1 with
      | some pr => jsParseFloatPrefix pr.1
      | none => none)

/-- Object.assign field semantics: a present source key overwrites. -/
def overrideO {α : Type} (old upd : Option α) : Option α :=
  match upd with
  | some v => some v
  | none => old

structure PColorScale where
  main : SLeaf := none
  light : SLeaf := none
  dark : SLeaf := none
  contrastText : SLeaf := none
deriving DecidableEq, Repr

def PColorScale.hasAny (s : PColorScale) : Bool :=
  s.main.isSome || s.light.isSome || s.dark.isSome || s.contrastText.isSome

def PColorScale.count (s : PColorScale) : Nat :=
  (if s.main.isSome then 1 else 0) + (if s.light.isSome then 1 else 0) +
    (if s.dark.isSome then 1 else 0) + (if s.contrastText.isSome then 1 else 0)

/-- `extractColorScale`: four name-specific patterns with keys
main/light/dark/contrast. -/
def extractColorScale (l : List Char) (colorName : String) : Option PColorScale :=
  let scale : PColorScale :=
    { main := fieldOf (jsScanAll (tryKVQ colorName ["main"]) l)
      light := fieldOf (jsScanAll (tryKVQ colorName ["light"]) l)
      dark := fieldOf (jsScanAll (tryKVQ colorName ["dark"]) l)
      contrastText := fieldOf (jsScanAll (tryKVQ colorName ["contrast"]) l) }
  if scale.hasAny then some scale else none

structure PTextColors where
  primary : SLeaf := none
  secondary : SLeaf := none
  disabled : SLeaf := none
  link : SLeaf := none
deriving DecidableEq, Repr

def PTextColors.hasAny (s : PTextColors) : Bool :=
  s.primary.isSome || s.secondary.isSome || s.disabled.isSome || s.link.isSome

def PTextColors.count (s : PTextColors) : Nat :=
  (if s.primary.isSome then 1 else 0) + (if s.secondary.isSome then 1 else 0) +
    (if s.disabled.isSome then 1 else 0) + (if s.link.isSome then 1 else 0)

def extractTextColors (l : List Char) : Option PTextColors :=
  let t : PTextColors :=
    { primary := fieldOf (jsScanAll (tryKVQ "text" ["primary"]) l)
      secondary := fieldOf (jsScanAll (tryKVQ "text" ["secondary"]) l)
      disabled := fieldOf (jsScanAll (tryKVQ "text" ["disabled"]) l)
      link := fieldOf (jsScanAll (tryKVQ "text" ["link"]) l) }
  if t.hasAny then some t else none

structure PBackgroundColors where
  canvas : SLeaf := none
  primary : SLeaf := none
  secondary : SLeaf := none
  dropdown : SLeaf := none
  hover : SLeaf := none
deriving DecidableEq, Repr

def PBackgroundColors.hasAny (s : PBackgroundColors) : Bool :=
  s.canvas.isSome || s.primary.isSome || s.secondary.isSome ||
    s.dropdown.isSome || s.hover.isSome

def PBackgroundColors.count (s : PBackgroundColors) : Nat :=
  (if s.canvas.isSome then 1 else 0) + (if s.primary.isSome then 1 else 0) +
    (if s.secondary.isSome then 1 else 0) + (if s.dropdown.isSome then 1 else 0) +
    (if s.hover.isSome then 1 else 0)

def extractBackgroundColors (l : List Char) : Option PBackgroundColors :=
  let t : PBackgroundColors :=
    { canvas := fieldOf (jsScanAll (tryKVQ "background" ["canvas"]) l)
      primary := fieldOf (jsScanAll (tryKVQ "background" ["primary"]) l)
      secondary := fieldOf (jsScanAll (tryKVQ "background" ["secondary"]) l)
      dropdown := fieldOf (jsScanAll (tryKVQ "background" ["dropdown"]) l)
      hover := fieldOf (jsScanAll (tryKVQ "background" ["hover"]) l) }
  if t.hasAny then some t else none

structure PBorderColors where
  weak : SLeaf := none
  medium : SLeaf := none
  strong : SLeaf := none
deriving DecidableEq, Repr

def PBorderColors.hasAny (s : PBorderColors) : Bool :=
  s.weak.isSome || s.medium.isSome || s.strong.isSome

def PBorderColors.count (s : PBorderColors) : Nat :=
  (if s.weak.isSome then 1 else 0) + (if s.medium.isSome then 1 else 0) +
    (if s.strong.isSome then 1 else 0)

def extractBorderColors (l : List Char) : Option PBorderColors :=
  let t : PBorderColors :=
    { weak := fieldOf (jsScanAll (tryKVQ "border" ["weak"]) l)
      medium := fieldOf (jsScanAll (tryKVQ "border" ["medium"]) l)
      strong := fieldOf (jsScanAll (tryKVQ "border" ["strong"]) l) }
  if t.hasAny then some t else none

structure PActionColors where
  hover : SLeaf := none
  focus : SLeaf := none
  selected : SLeaf := none
  disabledBackground : SLeaf := none
  disabledText : SLeaf := none
deriving DecidableEq, Repr

def PActionColors.hasAny (s : PActionColors) : Bool :=
  s.hover.isSome || s.focus.isSome || s.selected.isSome ||
    s.disabledBackground.isSome || s.disabledText.isSome

def PActionColors.count (s : PActionColors) : Nat :=
  (if s.hover.isSome then 1 else 0) + (if s.focus.isSome then 1 else 0) +
    (if s.selected.isSome then 1 else 0) +
    (if s.disabledBackground.isSome then 1 else 0) +
    (if s.disabledText.isSome then 1 else 0)

def extractActionColors (l : List Char) : Option PActionColors :=
  let t : PActionColors :=
    { hover := fieldOf (jsScanAll (tryKVQ "action" ["hover"]) l)
      focus := fieldOf (jsScanAll (tryKVQ "action" ["focus"]) l)
      selected := fieldOf (jsScanAll (tryKVQ "action" ["selected"]) l)
      disabledBackground := fieldOf (jsScanAll (tryKVQ "action" ["disabled", "background"]) l)
      disabledText := fieldOf (jsScanAll (tryKVQ "action" ["disabled", "text"]) l) }
  if t.hasAny then some t else none

structure PColorTokens where
  primary : Option PColorScale := none
  secondary : Option PColorScale := none
  success : Option PColorScale := none
  warning : Option PColorScale := none
  error : Option PColorScale := none
  info : Option PColorScale := none
  text : Option PTextColors := none
  background : Option PBackgroundColors := none
  border : Option PBorderColors := none
  action : Option PActionColors := none
deriving DecidableEq, Repr

def PColorTokens.hasAny (s : PColorTokens) : Bool :=
  s.primary.isSome || s.secondary.isSome || s.success.isSome || s.warning.isSome ||
    s.error.isSome || s.info.isSome || s.text.isSome || s.background.isSome ||
    s.border.isSome || s.action.isSome

def optCount {α : Type} (f : α → Nat) : Option α → Nat
  | none => 0
  | some v => f v

def PColorTokens.count (s : PColorTokens) : Nat :=
  optCount PColorScale.count s.primary + optCount PColorScale.count s.secondary +
    optCount PColorScale.count s.success + optCount PColorScale.count s.warning +
    optCount PColorScale.count s.error + optCount PColorScale.count s.info +
    optCount PTextColors.count s.text + optCount PBackgroundColors.count s.background +
    optCount PBorderColors.count s.border + optCount PActionColors.count s.action

/-- `parseColorObject`: the source runs a key/value scan over the matched
block but never assigns the results, so the returned color object is always
empty. -/
def parseColorObject (_colorMatch : List Char) : PColorTokens :=
  {}

/-- `Object.assign` on the partial color-token record. -/
def assignColorTokens (a b : PColorTokens) : PColorTokens :=
  { primary := overrideO a.primary b.primary
    secondary := overrideO a.secondary b.secondary
    success := overrideO a.success b.success
    warning := overrideO a.warning b.warning
    error := overrideO a.error b.error
    info := overrideO a.info b.info
    text := overrideO a.text b.text
    background := overrideO a.background b.background
    border := overrideO a.border b.border
    action := overrideO a.action b.action }

/-- `colors?\s*:\s*\x7b([^\x7d]*)\x7d`, full match. -/
def tryColorsObjPat (cs : List Char) : Option (List Char × List Char) :=
  lit "color" (fun cs1 =>
  optChr (fun c => c = 's') (fun cs2 =>
  star jsSpace (fun cs3 =>
  chr (fun c => c = ':') (fun _ cs4 =>
  star jsSpace (fun cs5 =>
  chr (fun c => c = '\x7b') (fun _ cs6 =>
  starCap (fun c => c != '\x7d') (fun _ cs7 =>
  chr (fun c => c = '\x7d') (fun _ cs8 =>
  some (spanTo cs cs8, cs8)) cs7) cs6) cs5) cs4) cs3) cs2) cs1) cs

/-- `palette\s*:\s*\x7b([^\x7d]*)\x7d`, full match. -/
def tryPalettePat (cs : List Char) : Option (List Char × List Char) :=
  lit "palette" (fun cs1 =>
  star jsSpace (fun cs2 =>
  chr (fun c => c = ':') (fun _ cs3 =>
  star jsSpace (fun cs4 =>
  chr (fun c => c = '\x7b') (fun _ cs5 =>
  starCap (fun c => c != '\x7d') (fun _ cs6 =>
  chr (fun c => c = '\x7d') (fun _ cs7 =>
  some (spanTo cs cs7, cs7)) cs6) cs5) cs4) cs3) cs2) cs1) cs

/-- `color\s*=\s*\x7b([^\x7d]*)\x7d`, full match. -/
def tryColorEqPat (cs : List Char) : Option (List Char × List Char) :=
  lit "color" (fun cs1 =>
  star jsSpace (fun cs2 =>
  chr (fun c => c = '=') (fun _ cs3 =>
  star jsSpace (fun cs4 =>
  chr (fun c => c = '\x7b') (fun _ cs5 =>
  starCap (fun c => c != '\x7d') (fun _ cs6 =>
  chr (fun c => c = '\x7d') (fun _ cs7 =>
  some (spanTo cs cs7, cs7)) cs6) cs5) cs4) cs3) cs2) cs1) cs

/-- The full matches of the three generic labelled-color-object patterns, in
pattern order. -/
def colorObjectFulls (l : List Char) : List (List Char) :=
  jsScanAll tryColorsObjPat l ++ jsScanAll tryPalettePat l ++ jsScanAll tryColorEqPat l

/-- `extractColors`: the generic pass (whose parsed result is discarded)
followed by the ten name-specific extractors. -/
def extractColors (l : List Char) : Option PColorTokens :=
  let base := (colorObjectFulls l).foldl
    (fun acc m => assignColorTokens acc (parseColorObject m)) {}
  let colors : PColorTokens :=
    { primary := overrideO base.primary (extractColorScale l "primary")
      secondary := overrideO base.secondary (extractColorScale l "secondary")
      success := overrideO base.success (extractColorScale l "success")
      warning := overrideO base.warning (extractColorScale l "warning")
      error := overrideO base.error (extractColorScale l "error")
      info := overrideO base.info (extractColorScale l "info")
      text := overrideO base.text (extractTextColors l)
      background := overrideO base.background (extractBackgroundColors l)
      border := overrideO base.border (extractBorderColors l)
      action := overrideO base.action (extractActionColors l) }
  if colors.hasAny then some colors else none

structure PFontFamily where
  sans : String
  mono : String
deriving DecidableEq, Repr

structure PFontSizes where
  xs : SLeaf := none
  sm : SLeaf := none
  md : SLeaf := none
  lg : SLeaf := none
  xl : SLeaf := none
  h1 : SLeaf := none
  h2 : SLeaf := none
  h3 : SLeaf := none
  h4 : SLeaf := none
  h5 : SLeaf := none
  h6 : SLeaf := none
deriving DecidableEq, Repr

def PFontSizes.hasAny (s : PFontSizes) : Bool :=
  s.xs.isSome || s.sm.isSome || s.md.isSome || s.lg.isSome || s.xl.isSome ||
    s.h1.isSome || s.h2.isSome || s.h3.isSome || s.h4.isSome || s.h5.isSome ||
    s.h6.isSome

def PFontSizes.count (s : PFontSizes) : Nat :=
  (if s.xs.isSome then 1 else 0) + (if s.sm.isSome then 1 else 0) +
    (if s.md.isSome then 1 else 0) + (if s.lg.isSome then 1 else 0) +
    (if s.xl.isSome then 1 else 0) + (if s.h1.isSome then 1 else 0) +
    (if s.h2.isSome then 1 else 0) + (if s.h3.isSome then 1 else 0) +
    (if s.h4.isSome then 1 else 0) + (if s.h5.isSome then 1 else 0) +
    (if s.h6.isSome then 1 else 0)

def extractFontSizes (l : List Char) : Option PFontSizes :=
  let t : PFontSizes :=
    { xs := fieldOf (jsScanAll (tryKVQ "fontSize" ["xs"]) l)
      sm := fieldOf (jsScanAll (tryKVQ "fontSize" ["sm"]) l)
      md := fieldOf (jsScanAll (tryKVQ "fontSize" ["md"]) l)
      lg := fieldOf (jsScanAll (tryKVQ "fontSize" ["lg"]) l)
      xl := fieldOf (jsScanAll (tryKVQ "fontSize" ["xl"]) l)
      h1 := fieldOf (jsScanAll (tryKVQ "fontSize" ["h1"]) l)
      h2 := fieldOf (jsScanAll (tryKVQ "fontSize" ["h2"]) l)
      h3 := fieldOf (jsScanAll (tryKVQ "fontSize" ["h3"]) l)
      h4 := fieldOf (jsScanAll (tryKVQ "fontSize" ["h4"]) l)
      h5 := fieldOf (jsScanAll (tryKVQ "fontSize" ["h5"]) l)
      h6 := fieldOf (jsScanAll (tryKVQ "fontSize" ["h6"]) l) }
  if t.hasAny then some t else none

structure PFontWeights where
  light : NLeaf := none
  regular : NLeaf := none
  medium : NLeaf := none
  semibold : NLeaf := none
  bold : NLeaf := none
deriving DecidableEq, Repr

def PFontWeights.hasAny (s : PFontWeights) : Bool :=
  s.light.isSome || s.regular.isSome || s.medium.isSome || s.semibold.isSome ||
    s.bold.isSome

def PFontWeights.count (s : PFontWeights) : Nat :=
  (if s.light.isSome then 1 else 0) + (if s.regular.isSome then 1 else 0) +
    (if s.medium.isSome then 1 else 0) + (if s.semibold.isSome then 1 else 0) +
    (if s.bold.isSome then 1 else 0)

def extractFontWeights (l : List Char) : Option PFontWeights :=
  let t : PFontWeights :=
    { light := numFieldOf (jsScanAll (tryKVN "fontWeight" ["light"]) l)
      regular := numFieldOf (jsScanAll (tryKVN "fontWeight" ["regular"]) l)
      medium := numFieldOf (jsScanAll (tryKVN "fontWeight" ["medium"]) l)
      semibold := numFieldOf (jsScanAll (tryKVN "fontWeight" ["semibold"]) l)
      bold := numFieldOf (jsScanAll (tryKVN "fontWeight" ["bold"]) l) }
  if t.hasAny then some t else none

structure PLineHeights where
  xs : FLeaf := none
  sm : FLeaf := none
  md : FLeaf := none
  lg : FLeaf := none
deriving DecidableEq, Repr

def PLineHeights.hasAny (s : PLineHeights) : Bool :=
  s.xs.isSome || s.sm.isSome || s.md.isSome || s.lg.isSome

def PLineHeights.count (s : PLineHeights) : Nat :=
  (if s.xs.isSome then 1 else 0) + (if s.sm.isSome then 1 else 0) +
    (if s.md.isSome then 1 else 0) + (if s.lg.isSome then 1 else 0)

def extractLineHeights (l : List Char) : Option PLineHeights :=
  let t : PLineHeights :=
    { xs := floatFieldOf (jsScanAll (tryKVF "lineHeight" ["xs"]) l)
      sm := floatFieldOf (jsScanAll (tryKVF "lineHeight" ["sm"]) l)
      md := floatFieldOf (jsScanAll (tryKVF "lineHeight" ["md"]) l)
      lg := floatFieldOf (jsScanAll (tryKVF "lineHeight" ["lg"]) l) }
  if t.hasAny then some t else none

structure PLetterSpacing where
  normal : SLeaf := none
  wide : SLeaf := none
deriving DecidableEq, Repr

def PLetterSpacing.hasAny (s : PLetterSpacing) : Bool :=
  s.normal.isSome || s.wide.isSome

def PLetterSpacing.count (s : PLetterSpacing) : Nat :=
  (if s.normal.isSome then 1 else 0) + (if s.wide.isSome then 1 else 0)

def extractLetterSpacing (l : List Char) : Option PLetterSpacing :=
  let t : PLetterSpacing :=
    { normal := fieldOf (jsScanAll (tryKVQ "letterSpacing" ["normal"]) l)
      wide := fieldOf (jsScanAll (tryKVQ "letterSpacing" ["wide"]) l) }
  if t.hasAny then some t else none

structure PTypography where
  fontFamily : Option PFontFamily := none
  fontSize : Option PFontSizes := none
  fontWeight : Option PFontWeights := none
  lineHeight : Option PLineHeights := none
  letterSpacing : Option PLetterSpacing := none
deriving DecidableEq, Repr

def PTypography.hasAny (s : PTypography) : Bool :=
  s.fontFamily.isSome || s.fontSize.isSome || s.fontWeight.isSome ||
    s.lineHeight.isSome || s.letterSpacing.isSome

def PTypography.count (s : PTypography) : Nat :=
  optCount (fun _ => 2) s.fontFamily + optCount PFontSizes.count s.fontSize +
    optCount PFontWeights.count s.fontWeight +
    optCount PLineHeights.count s.lineHeight +
    optCount PLetterSpacing.count s.letterSpacing

/-- `extractTypography`: font families from a capture-based `exec` loop, the
scales from the global-`match` helpers. -/
def extractTypography (l : List Char) : Option PTypography :=
  let ffs := (jsScanAll (tryKVQ "fontFamily" []) l).map (fun pr => String.mk pr.2)
  let fontFamily := match ffs with
    | [] => none
    | f0 :: _ =>
      some { sans := ((ffs.find? (fun f => !includesS f "mono")).getD f0 : String)
             mono := ((ffs.find? (fun f => includesS f "mono")).getD "monospace" : String) }
  let t : PTypography :=
    { fontFamily := fontFamily
      fontSize := extractFontSizes l
      fontWeight := extractFontWeights l
      lineHeight := extractLineHeights l
      letterSpacing := extractLetterSpacing l }
  if t.hasAny then some t else none

structure PSpacing where
  xs : Option String := none
  sm : Option String := none
  md : Option String := none
  lg : Option String := none
  xl : Option String := none
  xxl : Option String := none
  gridSize : Option (Option Int) := none
deriving DecidableEq, Repr

def PSpacing.hasAny (s : PSpacing) : Bool :=
  s.xs.isSome || s.sm.isSome || s.md.isSome || s.lg.isSome || s.xl.isSome ||
    s.xxl.isSome || s.gridSize.isSome

def PSpacing.count (s : PSpacing) : Nat :=
  (if s.xs.isSome then 1 else 0) + (if s.sm.isSome then 1 else 0) +
    (if s.md.isSome then 1 else 0) + (if s.lg.isSome then 1 else 0) +
    (if s.xl.isSome then 1 else 0) + (if s.xxl.isSome then 1 else 0) +
    (if s.gridSize.isSome then 1 else 0)

/-- One `(\w+):\s*['"]?([^'"\s,\x7d]+)['"]?` key/value of
`parseSpacingObject`. -/
def trySpacingKV (cs : List Char) : Option ((List Char × List Char) × List Char) :=
  plusCap wordChar (fun key cs1 =>
  chr (fun c => c = ':') (fun _ cs2 =>
  star jsSpace (fun cs3 =>
  optChr (fun c => c = '\'' || c = '"') (fun cs4 =>
  plusCap (fun c => c != '\'' && c != '"' && !(jsSpace c) && c != ',' && c != '\x7d')
    (fun v cs5 =>
  optChr (fun c => c = '\'' || c = '"') (fun cs6 =>
  some ((key, v), cs6)) cs5) cs4) cs3) cs2) cs1) cs

/-- `parseSpacingObject`. -/
def parseSpacingObject (m : List Char) : PSpacing :=
  (jsScanAll trySpacingKV m).foldl (fun acc pr =>
    let key := String.mk pr.1
    let v := String.mk pr.2
    if key == "xs" then { acc with xs := some v }
    else if key == "sm" then { acc with sm := some v }
    else if key == "md" then { acc with md := some v }
    else if key == "lg" then { acc with lg := some v }
    else if key == "xl" then { acc with xl := some v }
    else if key == "xxl" then { acc with xxl := some v }
    else if key == "gridSize" then { acc with gridSize := some (jsParseIntL pr.2) }
    else acc) {}

/-- `Object.assign` on the partial spacing record. -/
def assignSpacing (a b : PSpacing) : PSpacing :=
  { xs := overrideO a.xs b.xs
    sm := overrideO a.sm b.sm
    md := overrideO a.md b.md
    lg := overrideO a.lg b.lg
    xl := overrideO a.xl b.xl
    xxl := overrideO a.xxl b.xxl
    gridSize := overrideO a.gridSize b.gridSize }

/-- `spacing\s*:\s*\x7b([^\x7d]*)\x7d`, full match. -/
def trySpacingObjPat (cs : List Char) : Option (List Char × List Char) :=
  lit "spacing" (fun cs1 =>
  star jsSpace (fun cs2 =>
  chr (fun c => c = ':') (fun _ cs3 =>
  star jsSpace (fun cs4 =>
  chr (fun c => c = '\x7b') (fun _ cs5 =>
  starCap (fun c => c != '\x7d') (fun _ cs6 =>
  chr (fun c => c = '\x7d') (fun _ cs7 =>
  some (spanTo cs cs7, cs7)) cs6) cs5) cs4) cs3) cs2) cs1) cs

/-- `space\s*:\s*\x7b([^\x7d]*)\x7d`, full match. -/
def trySpaceObjPat (cs : List Char) : Option (List Char × List Char) :=
  lit "space" (fun cs1 =>
  star jsSpace (fun cs2 =>
  chr (fun c => c = ':') (fun _ cs3 =>
  star jsSpace (fun cs4 =>
  chr (fun c => c = '\x7b') (fun _ cs5 =>
  starCap (fun c => c != '\x7d') (fun _ cs6 =>
  chr (fun c => c = '\x7d') (fun _ cs7 =>
  some (spanTo cs cs7, cs7)) cs6) cs5) cs4) cs3) cs2) cs1) cs

/-- `gridSize\s*:\s*(\d+)`, full match. -/
def tryGridSizePat (cs : List Char) : Option (List Char × List Char) :=
  lit "gridSize" (fun cs1 =>
  star jsSpace (fun cs2 =>
  chr (fun c => c = ':') (fun _ cs3 =>
  star jsSpace (fun cs4 =>
  plusCap Char.isDigit (fun _ cs5 =>
  some (spanTo cs cs5, cs5)) cs4) cs3) cs2) cs1) cs

/-- `gridSize\s*:\s*(\d+)`, digit capture (the inner non-global re-match). -/
def tryGridSizeCap (cs : List Char) : Option (List Char) :=
  lit "gridSize" (fun cs1 =>
  star jsSpace (fun cs2 =>
  chr (fun c => c = ':') (fun _ cs3 =>
  star jsSpace (fun cs4 =>
  plusCap Char.isDigit (fun ds _ =>
  some ds) cs4) cs3) cs2) cs1) cs

/-- `extractSpacing`: three patterns in order; a full match containing
`gridSize` goes through the inner digit re-match, any other through
`parseSpacingObject` and `Object.assign`. -/
def extractSpacing (l : List Char) : Option PSpacing :=
  let fulls := jsScanAll trySpacingObjPat l ++ jsScanAll trySpaceObjPat l ++
    jsScanAll tryGridSizePat l
  let sp := fulls.foldl (fun acc m =>
    if includesL m "gridSize".toList then
      match jsFirstMatch tryGridSizeCap m with
      | some ds => { acc with gridSize := some (jsParseIntL ds) }
      | none => acc
    else assignSpacing acc (parseSpacingObject m)) {}
  if sp.hasAny then some sp else none

structure PShadows where
  z1 : Option String := none
  z2 : Option String := none
  z3 : Option String := none
deriving DecidableEq, Repr

def PShadows.hasAny (s : PShadows) : Bool :=
  s.z1.isSome || s.z2.isSome || s.z3.isSome

def PShadows.count (s : PShadows) : Nat :=
  (if s.z1.isSome then 1 else 0) + (if s.z2.isSome then 1 else 0) +
    (if s.z3.isSome then 1 else 0)

/-- `extractShadows`: `shadow[^:]*:\s*['"\x60]([^'"\x60]+)['"\x60]` in an
`exec` loop, dispatching on the full match text. -/
def extractShadows (l : List Char) : Option PShadows :=
  let sh := (jsScanAll (tryKVQ "shadow" []) l).foldl (fun acc pr =>
    if includesL pr.1 "z1".toList then { acc with z1 := some (String.mk pr.2) }
    else if includesL pr.1 "z2".toList then { acc with z2 := some (String.mk pr.2) }
    else if includesL pr.1 "z3".toList then { acc with z3 := some (String.mk pr.2) }
    else acc) ({} : PShadows)
  if sh.hasAny then some sh else none

structure PBorderRadius where
  default : Option String := none
  pill : Option String := none
  circle : Option String := none
deriving DecidableEq, Repr

def PBorderRadius.hasAny (s : PBorderRadius) : Bool :=
  s.default.isSome || s.pill.isSome || s.circle.isSome

def PBorderRadius.count (s : PBorderRadius) : Nat :=
  (if s.default.isSome then 1 else 0) + (if s.pill.isSome then 1 else 0) +
    (if s.circle.isSome then 1 else 0)

/-- `extractBorderRadius`. -/
def extractBorderRadius (l : List Char) : Option PBorderRadius :=
  let br := (jsScanAll tryRadius l).foldl (fun acc pr =>
    if includesL pr.1 "default".toList || includesL pr.1 "base".toList then
      { acc with default := some (String.mk pr.2) }
    else if includesL pr.1 "pill".toList then { acc with pill := some (String.mk pr.2) }
    else if includesL pr.1 "circle".toList then { acc with circle := some (String.mk pr.2) }
    else acc) ({} : PBorderRadius)
  if br.hasAny then some br else none

/-- `PRE[^:]*:\s*(\d+)`; yields (full match, digit capture). -/
def tryPreNum (pre : String) (cs : List Char) :
    Option ((List Char × List Char) × List Char) :=
  lit pre (fun cs1 =>
  star notColon (fun cs2 =>
  chr (fun c => c = ':') (fun _ cs3 =>
  star jsSpace (fun cs4 =>
  plusCap Char.isDigit (fun ds cs5 =>
  some ((spanTo cs cs5, ds), cs5)) cs4) cs3) cs2) cs1) cs

structure PZIndex where
  dropdown : Option Int := none
  modal : Option Int := none
  tooltip : Option Int := none
deriving DecidableEq, Repr

def PZIndex.hasAny (s : PZIndex) : Bool :=
  s.dropdown.isSome || s.modal.isSome || s.tooltip.isSome

def PZIndex.count (s : PZIndex) : Nat :=
  (if s.dropdown.isSome then 1 else 0) + (if s.modal.isSome then 1 else 0) +
    (if s.tooltip.isSome then 1 else 0)

/-- `extractZIndex`. -/
def extractZIndex (l : List Char) : Option PZIndex :=
  let z := (jsScanAll (tryPreNum "zIndex") l).foldl (fun acc pr =>
    if includesL pr.1 "dropdown".toList then
      { acc with dropdown := some (natOfDigits pr.2 : Int) }
    else if includesL pr.1 "modal".toList then
      { acc with modal := some (natOfDigits pr.2 : Int) }
    else if includesL pr.1 "tooltip".toList then
      { acc with tooltip := some (natOfDigits pr.2 : Int) }
    else acc) ({} : PZIndex)
  if z.hasAny then some z else none

structure PBreakpoints where
  xs : Option Int := none
  sm : Option Int := none
  md : Option Int := none
  lg : Option Int := none
  xl : Option Int := none
deriving DecidableEq, Repr

def PBreakpoints.hasAny (s : PBreakpoints) : Bool :=
  s.xs.isSome || s.sm.isSome || s.md.isSome || s.lg.isSome || s.xl.isSome

def PBreakpoints.count (s : PBreakpoints) : Nat :=
  (if s.xs.isSome then 1 else 0) + (if s.sm.isSome then 1 else 0) +
    (if s.md.isSome then 1 else 0) + (if s.lg.isSome then 1 else 0) +
    (if s.xl.isSome then 1 else 0)

/-- `extractBreakpoints`. -/
def extractBreakpoints (l : List Char) : Option PBreakpoints :=
  let b := (jsScanAll (tryPreNum "breakpoint") l).foldl (fun acc pr =>
    if includesL pr.1 "xs".toList then { acc with xs := some (natOfDigits pr.2 : Int) }
    else if includesL pr.1 "sm".toList then { acc with sm := some (natOfDigits pr.2 : Int) }
    else if includesL pr.1 "md".toList then { acc with md := some (natOfDigits pr.2 : Int) }
    else if includesL pr.1 "lg".toList then { acc with lg := some (natOfDigits pr.2 : Int) }
    else if includesL pr.1 "xl".toList then { acc with xl := some (natOfDigits pr.2 : Int) }
    else acc) ({} : PBreakpoints)
  if b.hasAny then some b else none

structure PThemeTokens where
  colors : Option PColorTokens := none
  typography : Option PTypography := none
  spacing : Option PSpacing := none
  shadows : Option PShadows := none
  borderRadius : Option PBorderRadius := none
  zIndex : Option PZIndex := none
  breakpoints : Option PBreakpoints := none
deriving DecidableEq, Repr

/-- `extractThemeTokens` of the theme extractor. -/
def extractThemeTokens (themeCode : String) : PThemeTokens :=
  let l := themeCode.toList
  { colors := extractColors l
    typography := extractTypography l
    spacing := extractSpacing l
    shadows := extractShadows l
    borderRadius := extractBorderRadius l
    zIndex := extractZIndex l
    breakpoints := extractBreakpoints l }

/-- `countTokens`: recursive leaf count (a present key with an `undefined`
value still counts as one leaf, as in `countObjectProperties`). -/
def countTokens (t : PThemeTokens) : Nat :=
  optCount PColorTokens.count t.colors + optCount PTypography.count t.typography +
    optCount PSpacing.count t.spacing + optCount PShadows.count t.shadows +
    optCount PBorderRadius.count t.borderRadius + optCount PZIndex.count t.zIndex +
    optCount PBreakpoints.count t.breakpoints

/-- `Object.keys(tokens)`, in the assignment order of `extractThemeTokens`. -/
def tokenCategories (t : PThemeTokens) : List String :=
  (if t.colors.isSome then ["colors"] else []) ++
    (if t.typography.isSome then ["typography"] else []) ++
    (if t.spacing.isSome then ["spacing"] else []) ++
    (if t.shadows.isSome then ["shadows"] else []) ++
    (if t.borderRadius.isSome then ["borderRadius"] else []) ++
    (if t.zIndex.isSome then ["zIndex"] else []) ++
    (if t.breakpoints.isSome then ["breakpoints"] else [])

inductive ThemeMode
  | light
  | dark
deriving DecidableEq, Repr

structure ThemeMetadata where
  name : String
  mode : ThemeMode
  version : String
  tokensCount : Nat
  categories : List String
  hasColors : Bool
  hasTypography : Bool
  hasSpacing : Bool
deriving DecidableEq, Repr

/-- `name\s*:\s*['"\x60]([^'"\x60]+)['"\x60]` (first match, capture). -/
def tryNameVal (key : String) (cs : List Char) : Option (List Char) :=
  lit key (fun cs1 =>
  star jsSpace (fun cs2 =>
  chr (fun c => c = ':') (fun _ cs3 =>
  star jsSpace (fun cs4 =>
  chr q3 (fun _ cs5 =>
  plusCap (fun c => !(q3 c)) (fun v cs6 =>
  chr q3 (fun _ _ =>
  some v) cs6) cs5) cs4) cs3) cs2) cs1) cs

/-- `extractThemeName`. -/
def extractThemeName (themeCode : String) : Option String :=
  (jsFirstMatch (tryNameVal "name") themeCode.toList).map String.mk

/-- `extractVersion`. -/
def extractVersion (themeCode : String) : Option String :=
  (jsFirstMatch (tryNameVal "version") themeCode.toList).map String.mk

/-- The dark-indicator vocabulary of `detectThemeMode`. -/
def darkIndicators : List String :=
  ["dark", "night", "black"]

/-- The light-indicator vocabulary: declared in the source but never used. -/
def lightIndicators : List String :=
  ["light", "day", "white"]

/-- `detectThemeMode`: dark when the lower-cased text contains any dark
indicator, light otherwise. -/
def detectThemeMode (themeCode : String) : ThemeMode :=
  let codeLC := jsToLowerL themeCode.toList
  if darkIndicators.any (fun ind => includesL codeLC ind.toList) then ThemeMode.dark
  else ThemeMode.light

/-- `extractThemeMetadata`. -/
def extractThemeMetadata (themeCode : String) : ThemeMetadata :=
  let tokens := extractThemeTokens themeCode
  { name := jsOrString (extractThemeName themeCode) "Grafana Theme"
    mode := detectThemeMode themeCode
    version := jsOrString (extractVersion themeCode) "1.0.0"
    tokensCount := countTokens tokens
    categories := tokenCategories tokens
    hasColors := tokens.colors.isSome
    hasTypography := tokens.typography.isSome
    hasSpacing := tokens.spacing.isSome }

/-- Canonical category keys of `filterTokensByCategory`. -/
inductive TCat
  | colors
  | typography
  | spacing
  | shadows
  | borderRadius
  | zIndex
  | breakpoints
deriving DecidableEq, Repr

/-- The literal alias table of `filterTokensByCategory` (including the two
camel-case keys that a lower-cased lookup can never reach). -/
def categoryMap : List (String × TCat) :=
  [("colors", TCat.colors), ("color", TCat.colors),
   ("typography", TCat.typography), ("font", TCat.typography),
   ("spacing", TCat.spacing), ("space", TCat.spacing),
   ("shadows", TCat.shadows), ("shadow", TCat.shadows),
   ("radius", TCat.borderRadius), ("borderRadius", TCat.borderRadius),
   ("zIndex", TCat.zIndex), ("z", TCat.zIndex),
   ("breakpoints", TCat.breakpoints), ("breakpoint", TCat.breakpoints)]

def jsToLowerS (s : String) : String :=
  String.mk (jsToLowerL s.toList)

/-- `categoryMap[category.toLowerCase()]`. -/
def lookupAlias (category : String) : Option TCat :=
  (categoryMap.find? (fun p => p.1 == jsToLowerS category)).map (·.2)

/-- Truthiness of `tokens[mappedCategory]`. -/
def catPresent (t : PThemeTokens) : TCat → Bool
  | TCat.colors => t.colors.isSome
  | TCat.typography => t.typography.isSome
  | TCat.spacing => t.spacing.isSome
  | TCat.shadows => t.shadows.isSome
  | TCat.borderRadius => t.borderRadius.isSome
  | TCat.zIndex => t.zIndex.isSome
  | TCat.breakpoints => t.breakpoints.isSome

/-- The single-key record `\x7b [mappedCategory]: tokens[mappedCategory] \x7d`. -/
def singleCat (t : PThemeTokens) : TCat → PThemeTokens
  | TCat.colors => { colors := t.colors }
  | TCat.typography => { typography := t.typography }
  | TCat.spacing => { spacing := t.spacing }
  | TCat.shadows => { shadows := t.shadows }
  | TCat.borderRadius => { borderRadius := t.borderRadius }
  | TCat.zIndex => { zIndex := t.zIndex }
  | TCat.breakpoints => { breakpoints := t.breakpoints }

/-- `filterTokensByCategory` of the theme extractor. -/
def filterTokensByCategory (tokens : PThemeTokens) (category : String) : PThemeTokens :=
  match lookupAlias category with
  | some k => if catPresent tokens k then singleCat tokens k else tokens
  | none => tokens

/-! ## Definitions supporting the claim statements -/

/-- The raw capitalized-tag matches behind `extractComponentReferences`,
in text order, before deduplication. -/
def rawComponentRefs (mdxCode : String) : List String :=
  (jsScanAll tryComponentRef mdxCode.toList).map String.mk

/-- The "capitalized single-word name" test of the claimed classification
heuristic (first character unchanged by upper-casing, no underscore). -/
def capitalizedSingleWord (name : String) : Bool :=
  match name.toList with
  | c :: rest => Char.toUpper c == c && !((c :: rest).contains '_')
  | [] => false

/-- The "ends in Props/Type/Interface" test of the classification
heuristic. -/
def endsWithOneOf (name : String) (suffixes : List String) : Bool :=
  suffixes.any (fun suf => suf.toList.isSuffixOf name.toList)

/-- The "ALL_CAPS or underscored" test of the classification heuristic. -/
def allCapsOrUnderscored (name : String) : Bool :=
  name.toList.contains '_' || (jsToUpperL name.toList == name.toList)

/-- The colors record built only from the name-specific extractors, following
the spec's description of `extractColors` with the discarded generic
labelled-object pass left out. -/
def specColorsFromScales (l : List Char) : Option PColorTokens :=
  let colors : PColorTokens :=
    { primary := extractColorScale l "primary"
      secondary := extractColorScale l "secondary"
      success := extractColorScale l "success"
      warning := extractColorScale l "warning"
      error := extractColorScale l "error"
      info := extractColorScale l "info"
      text := extractTextColors l
      background := extractBackgroundColors l
      border := extractBorderColors l
      action := extractActionColors l }
  if colors.hasAny then some colors else none

/-- At least one line of the document is a heading line. -/
def hasHeading (mdxCode : String) : Bool :=
  (splitLinesL mdxCode.toList).any (fun l => (headingMatch l).isSome)

/-- Index of the first heading line. -/
def firstHeadingIdx (mdxCode : String) : Nat :=
  (splitLinesL mdxCode.toList).findIdx (fun l => (headingMatch l).isSome)

/-- The section-coverage property claimed for `parseMDXContent`: the returned
sections are non-empty, start at the first heading line, form a contiguous
chain of ranges in document order, are pairwise non-overlapping, end at the
last line of the document, and cover every line from the first heading line
to the end exactly once. -/
def sectionCoverageOk (componentName mdxCode : String) : Prop :=
  let secs := (parseMDXContent componentName mdxCode).sections
  let lines := splitLinesL mdxCode.toList
  secs ≠ [] ∧
  (∀ hd, secs.head? = some hd → hd.startLine = firstHeadingIdx mdxCode) ∧
  List.Chain' (fun a b => b.startLine = a.endLine + 1) secs ∧
  (∀ s ∈ secs, s.startLine ≤ s.endLine) ∧
  (∀ la, secs.getLast? = some la → la.endLine + 1 = lines.length) ∧
  List.Pairwise (fun a b => a.endLine < b.startLine) secs ∧
  (∀ j, firstHeadingIdx mdxCode ≤ j → j + 1 ≤ lines.length →
    ∃ s ∈ secs, s.startLine ≤ j ∧ j ≤ s.endLine)

/-- Concrete document for the section-coverage witness. -/
def c2Doc : String :=
  "# A\nbody\n## B\nmore"

/-- Concrete story file for the typed-precedence witness: the name `A` is
declared once with a `StoryFn` annotation and once as a bare braced
function. -/
def c4Code : String :=
  "export const A: StoryFn = y;\nexport const A = () => \x7b z \x7d"

/-- The unique typed match of `c4Code`. -/
def c4Match : StoryMatch :=
  { sname := "A", full := "export const A: StoryFn = y;", content := "y" }

/-- Concrete token record for the category-filter counterexample: only the
spacing category is present. -/
def c8Tokens : PThemeTokens :=
  { spacing := some { xs := some "4px" } }

/-! ## Helper lemmas -/

theorem jsSetDedupGo_nodup (l : List String) : ∀ seen : List String,
    (jsSetDedupGo seen l).Nodup ∧ ∀ x ∈ jsSetDedupGo seen l, x ∉ seen := by
  induction l with
  | nil => intro seen; simp [jsSetDedupGo]
  | cons x xs ih =>
    intro seen
    by_cases hx : x ∈ seen
    · simp only [jsSetDedupGo, if_pos hx]
      exact ih seen
    · simp only [jsSetDedupGo, if_neg hx]
      obtain ⟨hnd, hmem⟩ := ih (x :: seen)
      refine ⟨List.nodup_cons.mpr ⟨fun hc => ?_, hnd⟩, ?_⟩
      · exact (hmem x hc) (List.mem_cons_self x seen)
      · intro y hy
        rcases List.mem_cons.mp hy with rfl | hy'
        · exact hx
        · intro hys
          exact (hmem y hy') (List.mem_cons_of_mem x hys)

theorem jsSetDedupGo_sublist (l : List String) : ∀ seen : List String,
    (jsSetDedupGo seen l).Sublist l := by
  induction l with
  | nil => intro seen; simp [jsSetDedupGo]
  | cons x xs ih =>
    intro seen
    by_cases hx : x ∈ seen
    · simp only [jsSetDedupGo, if_pos hx]
      exact (ih seen).cons x
    · simp only [jsSetDedupGo, if_neg hx]
      exact (ih (x :: seen)).cons₂ x

theorem foldl_insert_eq_go (l : List String) : ∀ (acc seen : List String),
    (∀ x, x ∈ acc ↔ x ∈ seen) →
    l.foldl (fun acc x => if x ∈ acc then acc else acc ++ [x]) acc =
      acc ++ jsSetDedupGo seen l := by
  induction l with
  | nil => intro acc seen _; simp [jsSetDedupGo]
  | cons x xs ih =>
    intro acc seen hiff
    by_cases hx : x ∈ seen
    · simp only [List.foldl_cons, jsSetDedupGo, if_pos hx, if_pos ((hiff x).mpr hx)]
      exact ih acc seen hiff
    · have hxa : x ∉ acc := fun hc => hx ((hiff x).mp hc)
      simp only [List.foldl_cons, jsSetDedupGo, if_neg hx, if_neg hxa]
      rw [ih (acc ++ [x]) (x :: seen) (fun y => by
        rw [List.mem_append, List.mem_singleton, List.mem_cons, hiff y]
        exact or_comm)]
      simp

theorem jsSetDedup_nodup (l : List String) : (jsSetDedup l).Nodup :=
  (jsSetDedupGo_nodup l []).1

theorem jsSetDedup_sublist (l : List String) : (jsSetDedup l).Sublist l :=
  jsSetDedupGo_sublist l []

theorem jsSetDedup_eq_foldl (l : List String) :
    jsSetDedup l = l.foldl (fun acc x => if x ∈ acc then acc else acc ++ [x]) [] := by
  rw [foldl_insert_eq_go l [] [] (fun x => Iff.rfl)]
  simp [jsSetDedup]

theorem probeLoop_eq_find (code : String) (l : List String) :
    probeLoop code l = l.find? (fun p =>
      includesS code ("type " ++ p) || includesS code ("interface " ++ p)) := by
  induction l with
  | nil => rfl
  | cons p ps ih =>
    by_cases h : (includesS code ("type " ++ p) || includesS code ("interface " ++ p) : Bool)
    · simp [probeLoop, List.find?, h]
    · simp [probeLoop, List.find?, h, ih]

theorem filterMapComm {α β : Type} (f : α → β) (p : β → Bool) (l : List α) :
    (l.map f).filter p = (l.filter (fun a => p (f a))).map f := by
  induction l with
  | nil => rfl
  | cons a l ih => by_cases h : p (f a) <;> simp [h, ih]

theorem foldl_addPlain_filter (ps : List StoryDefinition) (n : String) :
    ∀ acc : List StoryDefinition, acc.any (fun s => s.name == n) = true →
    (ps.foldl addPlainStory acc).filter (fun s => s.name == n) =
      acc.filter (fun s => s.name == n) := by
  induction ps with
  | nil => intro acc _; rfl
  | cons p ps ih =>
    intro acc hne
    simp only [List.foldl_cons]
    by_cases hmem : acc.any (fun t => t.name == p.name)
    · rw [show addPlainStory acc p = acc from by simp [addPlainStory, hmem]]
      exact ih acc hne
    · have hstep : addPlainStory acc p = acc ++ [p] := by
        simp only [addPlainStory, if_neg hmem]
      rw [hstep]
      have hacc : ((acc ++ [p]).any (fun s => s.name == n)) = true := by
        simp only [List.any_append, hne, Bool.true_or]
      rw [ih (acc ++ [p]) hacc]
      have hpn : (p.name == n) = false := by
        by_cases hq : p.name == n
        · exfalso
          have heq : p.name = n := by simpa using hq
          apply hmem
          rw [show (fun t => t.name == p.name) = (fun t : StoryDefinition => t.name == n) from by
            funext t; rw [heq]]
          exact hne
        · simpa using hq
      simp [List.filter_append, hpn]

theorem assign_parseColorObject (acc : PColorTokens) (m : List Char) :
    assignColorTokens acc (parseColorObject m) = acc := rfl

theorem foldl_assign_parseColor (ms : List (List Char)) (acc : PColorTokens) :
    ms.foldl (fun a m => assignColorTokens a (parseColorObject m)) acc = acc := by
  induction ms generalizing acc with
  | nil => rfl
  | cons m ms ih => simp [assign_parseColorObject, ih acc]

theorem overrideO_none {α : Type} (x : Option α) : overrideO none x = x := by
  cases x <;> rfl

theorem loop_some (n : Nat) (ls : List (List Char)) :
    ∀ (i st lv : Nat) (t : List Char) (content : List (List Char)),
      st < i → i + ls.length = n →
      ∃ hd tl, sectionsLoop n ls i (some (t, lv, st)) content = hd :: tl ∧
        hd.startLine = st ∧
        List.Chain' (fun a b => b.startLine = a.endLine + 1) (hd :: tl) ∧
        (∀ s ∈ hd :: tl, s.startLine ≤ s.endLine) ∧
        (∀ la, (hd :: tl).getLast? = some la → la.endLine + 1 = n) := by
  induction ls with
  | nil =>
    intro i st lv t content hst hn
    refine ⟨mkSection t lv content st (n - 1), [], rfl, rfl, ?_, ?_, ?_⟩
    · simp
    · intro s hs
      simp at hs
      subst hs
      show st ≤ n - 1
      omega
    · intro la hla
      simp at hla
      subst hla
      show (n - 1) + 1 = n
      omega
  | cons l ls ih =>
    intro i st lv t content hst hn
    simp only [sectionsLoop]
    cases hh : headingMatch l with
    | some pr =>
      obtain ⟨lv', t'⟩ := pr
      obtain ⟨hd, tl, hrest, hhd, hchain, hbounds, hlast⟩ :=
        ih (i + 1) i lv' (trimL t') [] (Nat.lt_succ_self i) (by simp at hn ⊢; omega)
      refine ⟨mkSection t lv content st (i - 1), hd :: tl, ?_, rfl, ?_, ?_, ?_⟩
      · simp only [hh, hrest]
      · rw [List.chain'_cons]
        refine ⟨?_, hchain⟩
        show hd.startLine = (mkSection t lv content st (i - 1)).endLine + 1
        rw [hhd]
        show i = (i - 1) + 1
        omega
      · intro s hs
        rcases List.mem_cons.mp hs with rfl | hs'
        · show st ≤ i - 1
          omega
        · exact hbounds s hs'
      · intro la hla
        rw [List.getLast?_cons_cons] at hla
        exact hlast la hla
    | none =>
      simp only [hh]
      exact ih (i + 1) st lv t (content ++ [l]) (by omega) (by simp at hn ⊢; omega)

theorem loop_none (n : Nat) (ls : List (List Char)) :
    ∀ (i : Nat) (content : List (List Char)),
      i + ls.length = n →
      ls.any (fun l => (headingMatch l).isSome) = true →
      ∃ hd tl, sectionsLoop n ls i none content = hd :: tl ∧
        hd.startLine = i + ls.findIdx (fun l => (headingMatch l).isSome) ∧
        List.Chain' (fun a b => b.startLine = a.endLine + 1) (hd :: tl) ∧
        (∀ s ∈ hd :: tl, s.startLine ≤ s.endLine) ∧
        (∀ la, (hd :: tl).getLast? = some la → la.endLine + 1 = n) := by
  induction ls with
  | nil =>
    intro i content _ hany
    simp at hany
  | cons l ls ih =>
    intro i content hn hany
    simp only [sectionsLoop]
    cases hh : headingMatch l with
    | some pr =>
      obtain ⟨lv', t'⟩ := pr
      obtain ⟨hd, tl, hrest, hhd, hchain, hbounds, hlast⟩ :=
        loop_some n ls (i + 1) i lv' (trimL t') [] (Nat.lt_succ_self i)
          (by simp at hn ⊢; omega)
      refine ⟨hd, tl, ?_, ?_, hchain, hbounds, hlast⟩
      · simp only [hh, hrest]
      · rw [hhd]
        have hidx : (l :: ls).findIdx (fun l => (headingMatch l).isSome) = 0 := by
          simp [List.findIdx_cons, hh]
        rw [hidx]
        omega
    | none =>
      simp only [hh]
      have hany' : ls.any (fun l => (headingMatch l).isSome) = true := by
        simp [List.any_cons, hh] at hany
        simpa using hany
      obtain ⟨hd, tl, hrest, hhd, hchain, hbounds, hlast⟩ :=
        ih (i + 1) content (by simp at hn ⊢; omega) hany'
      refine ⟨hd, tl, hrest, ?_, hchain, hbounds, hlast⟩
      rw [hhd]
      have hidx : (l :: ls).findIdx (fun l => (headingMatch l).isSome) =
          ls.findIdx (fun l => (headingMatch l).isSome) + 1 := by
        simp [List.findIdx_cons, hh]
      rw [hidx]
      omega

theorem chain_lt (rest : List MDXSection) :
    ∀ x : MDXSection,
      List.Chain' (fun a b => b.startLine = a.endLine + 1) (x :: rest) →
      (∀ s ∈ x :: rest, s.startLine ≤ s.endLine) →
      ∀ b ∈ rest, x.endLine < b.startLine := by
  induction rest with
  | nil =>
    intro x _ _ b hb
    cases hb
  | cons y rest ih =>
    intro x hchain hb b hmem
    have hxy : y.startLine = x.endLine + 1 := (List.chain'_cons.mp hchain).1
    have hychain := (List.chain'_cons.mp hchain).2
    rcases List.mem_cons.mp hmem with rfl | hmem'
    · omega
    · have hyb := ih y hychain (fun s hs => hb s (List.mem_cons_of_mem x hs)) b hmem'
      have hyy : y.startLine ≤ y.endLine := hb y (by simp)
      omega

theorem chain_pairwise (out : List MDXSection)
    (hchain : List.Chain' (fun a b => b.startLine = a.endLine + 1) out)
    (hb : ∀ s ∈ out, s.startLine ≤ s.endLine) :
    List.Pairwise (fun a b => a.endLine < b.startLine) out := by
  induction out with
  | nil => exact List.Pairwise.nil
  | cons x rest ih =>
    refine List.Pairwise.cons ?_ (ih hchain.tail ?_)
    · exact chain_lt rest x hchain hb
    · intro s hs
      exact hb s (List.mem_cons_of_mem x hs)

theorem chain_cover (out : List MDXSection) (n : Nat) :
    List.Chain' (fun a b => b.startLine = a.endLine + 1) out →
    (∀ s ∈ out, s.startLine ≤ s.endLine) →
    (∀ la, out.getLast? = some la → la.endLine + 1 = n) →
    ∀ hd, out.head? = some hd →
    ∀ j, hd.startLine ≤ j → j + 1 ≤ n →
    ∃ s ∈ out, s.startLine ≤ j ∧ j ≤ s.endLine := by
  induction out with
  | nil =>
    intro _ _ _ hd hhd
    cases hhd
  | cons x rest ih =>
    intro hchain hb hlast hd hhd j hj hjn
    have hdx : hd = x := by
      simp only [List.head?_cons, Option.some.injEq] at hhd
      exact hhd.symm
    rw [hdx] at hj
    cases rest with
    | nil =>
      have hend : x.endLine + 1 = n := hlast x (by simp)
      exact ⟨x, by simp, hj, by omega⟩
    | cons y rest' =>
      by_cases hcase : j ≤ x.endLine
      · exact ⟨x, by simp, hj, hcase⟩
      · have hxy : y.startLine = x.endLine + 1 := (List.chain'_cons.mp hchain).1
        obtain ⟨s, hs, h1, h2⟩ := ih hchain.tail
          (fun s hs => hb s (List.mem_cons_of_mem x hs))
          (fun la hla => hlast la (by rw [List.getLast?_cons_cons]; exact hla))
          y rfl j (by omega) hjn
        exact ⟨s, List.mem_cons_of_mem x hs, h1, h2⟩

/-! ## Claim theorems -/

/-- Claim C1 (code bug): the extractors are claimed total and never-throwing,
and on the empty string they do return records with empty lists and unset
optionals; but `parseComponentMetadata` throws on the input `export \x7b \x7d`:
the grouped-export list yields the empty exported name, and
`inferExportType` then evaluates `name[0].toUpperCase()` on `undefined`
(modelled as `none`). -/
theorem c1_totality_code_bug :
    parseComponentMetadata "Button" "export \x7b \x7d" = none ∧
    parseComponentMetadata "Button" "" =
      some { name := "Button", description := none, props := [], exports := [],
             imports := [], dependencies := [], hasTests := false,
             hasStories := false, hasDocumentation := false } ∧
    parseStoryMetadata "Button" "" =
      { componentName := "Button",
        meta := { title := "", component := "Button", stories := [],
                  argTypes := none, parameters := none, decorators := none },
        totalStories := 0, hasInteractiveStories := false, hasExamples := false } ∧
    parseMDXContent "Button" "" =
      { title := "Button", content := "", sections := [], examples := [],
        metadata := [], imports := [], components := [] } ∧
    extractThemeTokens "" = ({} : PThemeTokens) ∧
    extractThemeMetadata "" =
      { name := "Grafana Theme", mode := ThemeMode.light, version := "1.0.0",
        tokensCount := 0, categories := [], hasColors := false,
        hasTypography := false, hasSpacing := false } := by
  refine ⟨?_, ?_, ?_, ?_, ?_, ?_⟩ <;> rfl

/-- Claim C2: for every document with at least one heading line, the sections
returned by `parseMDXContent` have contiguous, non-overlapping ranges in
document order that cover every line from the first heading line to the last
line exactly once. -/
theorem c2_section_coverage (componentName mdxCode : String)
    (h : hasHeading mdxCode = true) : sectionCoverageOk componentName mdxCode := by
  obtain ⟨hd, tl, hout, hhd, hchain, hbounds, hlast⟩ :=
    loop_none (splitLinesL mdxCode.toList).length (splitLinesL mdxCode.toList) 0 []
      (by omega) h
  have hsecs : (parseMDXContent componentName mdxCode).sections =
      sectionsLoop (splitLinesL mdxCode.toList).length (splitLinesL mdxCode.toList)
        0 none [] := rfl
  unfold sectionCoverageOk
  rw [hsecs, hout]
  have hfh : firstHeadingIdx mdxCode =
      (splitLinesL mdxCode.toList).findIdx (fun l => (headingMatch l).isSome) := rfl
  refine ⟨by simp, ?_, hchain, hbounds, hlast, ?_, ?_⟩
  · intro hd' hhd'
    simp only [List.head?_cons, Option.some.injEq] at hhd'
    subst hhd'
    rw [hfh]
    omega
  · exact chain_pairwise (hd :: tl) hchain hbounds
  · intro j hj hjn
    refine chain_cover (hd :: tl) (splitLinesL mdxCode.toList).length hchain hbounds
      hlast hd rfl j ?_ hjn
    rw [hfh] at hj
    omega

/-- Witness for C2: the coverage property at a concrete two-heading
document. -/
theorem c2_section_coverage_witness : sectionCoverageOk "X" c2Doc :=
  c2_section_coverage "X" c2Doc (by decide)

/-- Claim C3 counterexample: the claim fails on the code in two ways.  The
documentation import list is not deduplicated (two imports from module `x`
yield `x` twice), and exported names are ordered by declaration-pattern
category rather than by first appearance in the source text (`Bar`, found by
the interface pattern, precedes `foo` although `foo` appears first in the
text). -/
theorem c3_dedup_counterexample :
    extractImports "import a from 'x'\nimport b from 'x'" = ["x", "x"] ∧
    ¬ (extractImports "import a from 'x'\nimport b from 'x'").Nodup ∧
    extractExportsFromCode "export function foo()\nexport interface Bar" = ["Bar", "foo"] ∧
    subIdxS "export function foo()\nexport interface Bar" "foo" = some 16 ∧
    subIdxS "export function foo()\nexport interface Bar" "Bar" = some 39 := by
  refine ⟨rfl, ?_, rfl, rfl, rfl⟩
  decide

/-- Claim C3 amended: external dependency names, exported names, and
referenced component names are deduplicated — each list is duplicate-free, a
sublist of its raw match sequence, and equal to the first-occurrence
insertion fold over that sequence (so each keeps the relative order of first
appearance in its raw match sequence; for dependencies and referenced
components that sequence is text order, while for exports it is
pattern-category order).  Documentation import specifiers are collected in
match order without deduplication. -/
theorem c3_dedup_amended (code mdxCode : String) :
    ((extractImportsFromCode code).Nodup ∧
      (extractImportsFromCode code).Sublist (rawDependencyMatches code) ∧
      extractImportsFromCode code =
        (rawDependencyMatches code).foldl
          (fun acc x => if x ∈ acc then acc else acc ++ [x]) []) ∧
    ((extractExportsFromCode code).Nodup ∧
      (extractExportsFromCode code).Sublist (rawExportNames code) ∧
      extractExportsFromCode code =
        (rawExportNames code).foldl
          (fun acc x => if x ∈ acc then acc else acc ++ [x]) []) ∧
    ((extractComponentReferences mdxCode).Nodup ∧
      (extractComponentReferences mdxCode).Sublist (rawComponentRefs mdxCode) ∧
      extractComponentReferences mdxCode =
        (rawComponentRefs mdxCode).foldl
          (fun acc x => if x ∈ acc then acc else acc ++ [x]) []) :=
  ⟨⟨jsSetDedup_nodup _, jsSetDedup_sublist _, jsSetDedup_eq_foldl _⟩,
   ⟨jsSetDedup_nodup _, jsSetDedup_sublist _, jsSetDedup_eq_foldl _⟩,
   ⟨jsSetDedup_nodup _, jsSetDedup_sublist _, jsSetDedup_eq_foldl _⟩⟩

/-- Claim C4: when the typed story pattern matches a name exactly once and
the bare-function pattern also matches that name, the extracted story list
holds exactly one story with that name, and it is the record built from the
typed match (including its captured args). -/
theorem c4_typed_precedence (storyCode n : String) (m : StoryMatch)
    (htyped : (typedMatches storyCode).filter (fun t => t.sname == n) = [m])
    (_hplain : (plainMatches storyCode).any (fun t => t.sname == n) = true) :
    (extractStories storyCode).filter (fun s => s.name == n) =
      [mkTypedStory storyCode m] := by
  unfold extractStories
  have hbase : (((typedMatches storyCode).map (mkTypedStory storyCode)).filter
      (fun s => s.name == n)) = [mkTypedStory storyCode m] := by
    rw [filterMapComm]
    rw [show (fun a => (mkTypedStory storyCode a).name == n) =
        (fun t : StoryMatch => t.sname == n) from rfl]
    rw [htyped]
    rfl
  have hany : (((typedMatches storyCode).map (mkTypedStory storyCode)).any
      (fun s => s.name == n)) = true := by
    apply List.any_eq_true.mpr
    have hx : mkTypedStory storyCode m ∈
        (((typedMatches storyCode).map (mkTypedStory storyCode)).filter
          (fun s => s.name == n)) := by
      rw [hbase]
      exact List.mem_singleton_self _
    have hmf := List.mem_filter.mp hx
    exact ⟨_, hmf.1, hmf.2⟩
  rw [foldl_addPlain_filter _ n _ hany, hbase]

/-- Witness for C4: in `c4Code` the name `A` is matched once by the typed
pattern and once by the bare-function pattern, and survives exactly once,
as the typed record. -/
theorem c4_typed_precedence_witness :
    (extractStories c4Code).filter (fun s => s.name == "A") =
      [mkTypedStory c4Code c4Match] :=
  c4_typed_precedence c4Code "A" c4Match (by decide) (by decide)

/-- Claim C5 counterexample: on the story text
`export const Primary = () => <Button />;` the parser returns zero stories,
not one — the bare-function pattern requires a braced function body, which
the expression-bodied arrow does not have. -/
theorem c5_story_counterexample :
    (parseStoryMetadata "Button" "export const Primary = () => <Button />;").meta.stories = [] ∧
    (parseStoryMetadata "Button" "export const Primary = () => <Button />;").totalStories = 0 :=
  ⟨rfl, rfl⟩

/-- Claim C5 amended: the expression-bodied declaration yields zero stories;
the braced-body variant yields exactly one story named `Primary` with no
description. -/
theorem c5_story_amended :
    (parseStoryMetadata "Button"
        "export const Primary = () => \x7b return <Button />; \x7d").meta.stories =
      [{ name := "Primary", args := none, parameters := none,
         source := "export const Primary = () => \x7b return <Button />; \x7d",
         description := none }] ∧
    (parseStoryMetadata "Button"
        "export const Primary = () => \x7b return <Button />; \x7d").totalStories = 1 :=
  ⟨rfl, rfl⟩

/-- Claim C6 counterexample: `ButtonProps` is a capitalized single-word name,
yet it is not classified `component` — the suffix rule runs first and
classifies it `type`, so the claim's rule list cannot hold as stated. -/
theorem c6_classification_counterexample :
    capitalizedSingleWord "ButtonProps" = true ∧
    inferExportType "ButtonProps" ≠ some ExportType.component ∧
    inferExportType "ButtonProps" = some ExportType.type := by
  refine ⟨rfl, ?_, rfl⟩
  decide

/-- Claim C6 amended: the classification applies its rules with precedence —
Props/Type/Interface suffix first (`type`), then capitalized-without-
underscore (`component`, which also captures ALL-CAPS names without
underscores), then underscored-or-ALL-CAPS (`const`), else `function`; on
the empty name the code throws (modelled `none`). -/
theorem c6_classification_amended (name : String) :
    inferExportType name =
      (if endsWithOneOf name ["Props", "Type", "Interface"] then some ExportType.type
       else if name.toList.isEmpty then none
       else if capitalizedSingleWord name then some ExportType.component
       else if allCapsOrUnderscored name then some ExportType.const
       else some ExportType.function) := by
  unfold inferExportType endsWithOneOf capitalizedSingleWord allCapsOrUnderscored
  simp only [List.any_cons, List.any_nil, Bool.or_false]
  rcases h : name.toList with _ | ⟨c, rest⟩ <;> simp [h] <;> split <;> simp_all [or_assoc]

/-- Claim C7: on `export interface ButtonProps \x7b /** primary action */
variant?: string \x7d` with subject `Button`, exactly one prop
`variant : string`, optional, described `primary action`, is extracted; the
props-shape identifier is resolved by probing `ButtonProps`, `IButtonProps`,
`ButtonProperties`, then `CommonProps`, stopping at the first textual
match. -/
theorem c7_props_scenario :
    (parseComponentMetadata "Button"
        "export interface ButtonProps \x7b /** primary action */ variant?: string \x7d").map
      ComponentMetadata.props =
      some [{ name := "variant", type := "string", required := false,
              description := some "primary action", defaultValue := none }] ∧
    findPropsInterface
        "export interface ButtonProps \x7b /** primary action */ variant?: string \x7d"
        "Button" = some "ButtonProps" ∧
    ∀ (code componentName : String),
      findPropsInterface code componentName =
        (propsProbeList componentName).find? (fun p =>
          includesS code ("type " ++ p) || includesS code ("interface " ++ p)) :=
  ⟨rfl, rfl, fun code componentName => probeLoop_eq_find code (propsProbeList componentName)⟩

/-- Claim C8 counterexample: the alias `color` is in the table, yet on a
token record without a colors category the filter returns the full token
set — so "returns the full token set exactly when the alias is not in the
table" fails. -/
theorem c8_filter_counterexample :
    filterTokensByCategory c8Tokens "color" = c8Tokens ∧
    lookupAlias "color" = some TCat.colors ∧
    catPresent c8Tokens TCat.colors = false ∧
    c8Tokens ≠ singleCat c8Tokens TCat.colors := by
  refine ⟨rfl, rfl, rfl, ?_⟩
  decide

/-- Claim C8 amended: the filter maps the lower-cased alias through the fixed
table; when the mapped category is present it returns exactly that
category's slice, and it returns the full token set when the alias is
unrecognized or the mapped category is absent from the tokens. -/
theorem c8_filter_amended (tokens : PThemeTokens) (category : String) :
    (∃ k, lookupAlias category = some k ∧ catPresent tokens k = true ∧
      filterTokensByCategory tokens category = singleCat tokens k) ∨
    ((lookupAlias category = none ∨
      ∃ k, lookupAlias category = some k ∧ catPresent tokens k = false) ∧
      filterTokensByCategory tokens category = tokens) := by
  unfold filterTokensByCategory
  rcases h : lookupAlias category with _ | k
  · exact Or.inr ⟨Or.inl rfl, rfl⟩
  · by_cases hp : catPresent tokens k
    · exact Or.inl ⟨k, rfl, hp, by simp [hp]⟩
    · exact Or.inr ⟨Or.inr ⟨k, rfl, by simpa using hp⟩, by simp [hp]⟩

/-- Claim C9: the derived mode is `dark` exactly when the lower-cased theme
text contains a word of the dark-indicator vocabulary, and `light`
otherwise; in particular `dark mode toggle` yields `dark` and text with
neither dark nor light vocabulary yields `light`. -/
theorem c9_theme_mode :
    (∀ themeCode : String,
      detectThemeMode themeCode = ThemeMode.dark ↔
        ∃ ind ∈ darkIndicators, includesL (jsToLowerL themeCode.toList) ind.toList = true) ∧
    detectThemeMode "dark mode toggle" = ThemeMode.dark ∧
    darkIndicators.all (fun ind => !includesS "simple theme" ind) = true ∧
    lightIndicators.all (fun ind => !includesS "simple theme" ind) = true ∧
    detectThemeMode "simple theme" = ThemeMode.light := by
  refine ⟨?_, rfl, rfl, rfl, rfl⟩
  intro themeCode
  unfold detectThemeMode
  by_cases h : (darkIndicators.any fun ind => includesL (jsToLowerL themeCode.toList) ind.toList)
  · simp only [h, if_true]
    simpa [List.any_eq_true] using h
  · simp only [h, if_false]
    constructor
    · intro hc
      cases hc
    · intro hex
      exact absurd (List.any_eq_true.mpr (by simpa using hex)) h

/-- Claim C10: the generic labelled-color-object helper has no effect —
`parseColorObject` returns the empty record on every input, and
`extractColors` equals the variant built only from the name-specific
color-scale, text, background, border and action extractors. -/
theorem c10_color_object_noop :
    (∀ colorMatch : List Char, parseColorObject colorMatch = ({} : PColorTokens)) ∧
    (∀ themeCode : List Char, extractColors themeCode = specColorsFromScales themeCode) := by
  refine ⟨fun _ => rfl, fun l => ?_⟩
  unfold extractColors specColorsFromScales
  rw [foldl_assign_parseColor]
  simp only [overrideO_none]

end GrafanaUI
